import Mathlib

/-!
Shallow embedding of the spitfire 2D rendering front-end, covering the
geometry batching core (`spitfire-core`: `VertexStream`), the state-diffed
GPU submission step (`spitfire-glow`: `GlowBatch::draw` / `GlowRenderer`),
the glyph atlas (`spitfire-fontdue`: `TextRenderer`), and the tile map
helpers (`spitfire-draw`: `TileMap`).

Modelling conventions:
- Rust `Vec<T>` becomes `List T`; `u32`/`usize` become `Nat`.  The claims
  under study never exercise integer overflow; where the source performs a
  `u32`/`usize` subtraction that would panic on underflow in a debug build
  (triangle/range re-basing in `VertexStream::extract`), we use truncated
  `Nat` subtraction and the corresponding theorems carry the no-underflow
  hypotheses expressed by the source's documented suffix-token contract.
- Capacity bookkeeping (`resize_count`, `reserve_exact`, `with_capacity`)
  does not change buffer contents and is omitted.
- `&mut self` methods become state-passing functions; methods that drain
  another buffer return both resulting states.
-/

namespace Spitfire

/-- Triangle: three vertex-buffer indices (`u32` in the source). -/
structure Triangle where
  a : Nat
  b : Nat
  c : Nat
deriving DecidableEq, Repr

/-- `Triangle::offset`: shift all three indices by `offset`. -/
def Triangle.offset (t : Triangle) (o : Nat) : Triangle :=
  ⟨t.a + o, t.b + o, t.c + o⟩

/-- `Triangle::default()` is `{a: 0, b: 1, c: 2}`. -/
def Triangle.default : Triangle := ⟨0, 1, 2⟩

/-- One entry of `VertexStream::batches`: batch data paired with the
half-open triangle range `start..stop` (`Range<usize>` in the source,
whose `end` field is named `stop` here since `end` is a Lean keyword). -/
structure BatchRange (B : Type) where
  data : B
  start : Nat
  stop : Nat
deriving DecidableEq, Repr

/-- `VertexStream<V, B>`: three parallel growable buffers. -/
structure VertexStream (V B : Type) where
  vertices : List V
  triangles : List Triangle
  batches : List (BatchRange B)
deriving DecidableEq, Repr

namespace VertexStream

variable {V B : Type}

/-- A freshly constructed (or `fork`ed) stream: all buffers empty. -/
def empty : VertexStream V B := ⟨[], [], []⟩

/-- `VertexStreamToken`: snapshot of the three buffer lengths. -/
structure Token where
  vertices : Nat
  triangles : Nat
  batches : Nat
deriving DecidableEq, Repr

/-- `VertexStream::token`. -/
def token (s : VertexStream V B) : Token :=
  ⟨s.vertices.length, s.triangles.length, s.batches.length⟩

/-- `VertexStream::clear`: empties all three buffers. -/
def clear (_s : VertexStream V B) : VertexStream V B := ⟨[], [], []⟩

/-- `VertexStream::extract(token)`: drains everything past the token's
lengths into a fresh stream, re-basing drained triangle indices by the
token's vertex count and drained batch ranges by the token's triangle
count.  Returns `(source after drain, extracted stream)`.  The `u32`
subtractions are truncated `Nat` subtraction here (the source would panic
on underflow in debug builds; the suffix-token contract rules it out). -/
def extract (s : VertexStream V B) (tk : Token) :
    VertexStream V B × VertexStream V B :=
  (⟨s.vertices.take tk.vertices, s.triangles.take tk.triangles,
    s.batches.take tk.batches⟩,
   ⟨s.vertices.drop tk.vertices,
    (s.triangles.drop tk.triangles).map fun t =>
      ⟨t.a - tk.vertices, t.b - tk.vertices, t.c - tk.vertices⟩,
    (s.batches.drop tk.batches).map fun br =>
      ⟨br.data, br.start - tk.triangles, br.stop - tk.triangles⟩⟩)

/-- `VertexStream::triangle([v0, v1, v2])`. -/
def triangle (s : VertexStream V B) (v0 v1 v2 : V) : VertexStream V B :=
  { s with
    vertices := s.vertices ++ [v0, v1, v2]
    triangles := s.triangles ++ [Triangle.default.offset s.vertices.length] }

/-- The triangles pushed by `triangle_fan`'s loop: iteration `i` (with the
running `offset = start + 1 + i`) pushes `(start, offset, offset + 1)`. -/
def fanTriangles (start count : Nat) : List Triangle :=
  (List.range count).map fun i => ⟨start, start + 1 + i, start + 2 + i⟩

/-- `VertexStream::triangle_fan(iter)`: appends the vertices and emits
`(end - start).saturating_sub(2)` fan triangles from the first appended
vertex. -/
def triangle_fan (s : VertexStream V B) (vs : List V) : VertexStream V B :=
  { s with
    vertices := s.vertices ++ vs
    triangles := s.triangles ++ fanTriangles s.vertices.length (vs.length - 2) }

/-- The triangles pushed by `triangle_strip`'s loop: iteration `i` (with
running `offset = start + i` and `flip` toggling from `false`) pushes
`(offset+1, offset, offset+2)` when flipped, else `(offset, offset+1,
offset+2)`. -/
def stripTriangles (start count : Nat) : List Triangle :=
  (List.range count).map fun i =>
    if i % 2 = 1 then ⟨start + i + 1, start + i, start + i + 2⟩
    else ⟨start + i, start + i + 1, start + i + 2⟩

/-- `VertexStream::triangle_strip(iter)`. -/
def triangle_strip (s : VertexStream V B) (vs : List V) : VertexStream V B :=
  { s with
    vertices := s.vertices ++ vs
    triangles := s.triangles ++ stripTriangles s.vertices.length (vs.length - 2) }

/-- `VertexStream::quad([a,b,c,d])`: pushes triangles `(0,1,2)` and
`(2,3,0)`, both offset by the pre-call vertex count. -/
def quad (s : VertexStream V B) (v0 v1 v2 v3 : V) : VertexStream V B :=
  { s with
    vertices := s.vertices ++ [v0, v1, v2, v3]
    triangles := s.triangles ++
      [Triangle.offset ⟨0, 1, 2⟩ s.vertices.length,
       Triangle.offset ⟨2, 3, 0⟩ s.vertices.length] }

/-- `VertexStream::extend(vertices, triangles)`: bulk-append with
automatic index-offset translation of the supplied triangles. -/
def extendWith (s : VertexStream V B) (vs : List V) (ts : List Triangle) :
    VertexStream V B :=
  { s with
    vertices := s.vertices ++ vs
    triangles := s.triangles ++ ts.map (·.offset s.vertices.length) }

/-- `VertexStream::extend_vertices` (trusted bulk-append). -/
def extend_vertices (s : VertexStream V B) (vs : List V) : VertexStream V B :=
  { s with vertices := s.vertices ++ vs }

/-- `VertexStream::extend_triangles` (trusted bulk-append; `relative`
selects whether indices are offset by the current vertex count). -/
def extend_triangles (s : VertexStream V B) (relative : Bool)
    (ts : List Triangle) : VertexStream V B :=
  if relative then
    { s with triangles := s.triangles ++ ts.map (·.offset s.vertices.length) }
  else
    { s with triangles := s.triangles ++ ts }

/-- `VertexStream::extend_batches` (trusted bulk-append). -/
def extend_batches (s : VertexStream V B) (bs : List (BatchRange B)) :
    VertexStream V B :=
  { s with batches := s.batches ++ bs }

/-- `VertexStream::append(other)`: drains `other` onto the end of `s`,
offsetting triangles by `s`'s vertex count and batch ranges by `s`'s
triangle count.  Returns `(s after append, other after drain)`. -/
def appendStream (s other : VertexStream V B) :
    VertexStream V B × VertexStream V B :=
  ({ vertices := s.vertices ++ other.vertices
     triangles := s.triangles ++ other.triangles.map (·.offset s.vertices.length)
     batches := s.batches ++ other.batches.map fun br =>
       ⟨br.data, br.start + s.triangles.length, br.stop + s.triangles.length⟩ },
   ⟨[], [], []⟩)

/-- `VertexStream::append_cloned(other)`: same splice, leaving `other`
untouched. -/
def append_cloned (s other : VertexStream V B) : VertexStream V B :=
  (appendStream s other).1

/-- The `last_mut().1.end = n` update used by `batch_end` and by the merge
branch of `batch_optimized`: set the last batch's range end to `n`. -/
def setLastStop (n : Nat) : List (BatchRange B) → List (BatchRange B)
  | [] => []
  | br :: rest =>
    match rest with
    | [] => [{ br with stop := n }]
    | _ :: _ => br :: setLastStop n rest

/-- `VertexStream::batch_end`: closes the last open batch at the current
triangle count (no-op when there is no batch). -/
def batch_end (s : VertexStream V B) : VertexStream V B :=
  { s with batches := setLastStop s.triangles.length s.batches }

/-- `VertexStream::batch(data)`: closes the previous batch and pushes a
new one whose range starts (empty) at the current triangle count. -/
def batch (s : VertexStream V B) (data : B) : VertexStream V B :=
  let s' := s.batch_end
  { s' with
    batches := s'.batches ++ [⟨data, s.triangles.length, s.triangles.length⟩] }

/-- `VertexStream::batch_optimized(data)`: if the last batch's state
equals `data`, just extend its range end to the current triangle count;
otherwise fall back to `batch`. -/
def batch_optimized [DecidableEq B] (s : VertexStream V B) (data : B) :
    VertexStream V B :=
  match s.batches.getLast? with
  | none => s.batch data
  | some br =>
    if br.data = data then
      { s with batches := setLastStop s.triangles.length s.batches }
    else s.batch data

/-- `VertexStream::drain()`: implicitly finalizes the last open batch,
then returns consuming views over the three buffers.  Modelled as the
drained triple plus the emptied stream. -/
def drain (s : VertexStream V B) :
    (List V × List Triangle × List (BatchRange B)) × VertexStream V B :=
  let s' := s.batch_end
  ((s'.vertices, s'.triangles, s'.batches), ⟨[], [], []⟩)

end VertexStream

/-! ## Public build traces of a `VertexStream`

The "batch / batch_optimized / shape-append" public API named by the batch
partition contract, as an operation alphabet, so that invariants can be
stated over every stream built through it. -/

/-- One public mutating call of the batch/shape-append API. -/
inductive StreamOp (V B : Type) where
  | tri (v0 v1 v2 : V)
  | quadOp (v0 v1 v2 v3 : V)
  | fan (vs : List V)
  | strip (vs : List V)
  | extendGeometry (vs : List V) (ts : List Triangle)
  | openBatch (data : B)
  | openBatchOptimized (data : B)
  | closeBatch
deriving DecidableEq, Repr

namespace StreamOp

variable {V B : Type}

/-- Number of triangles appended by one operation. -/
def triangleCount : StreamOp V B → Nat
  | tri _ _ _ => 1
  | quadOp _ _ _ _ => 2
  | fan vs => vs.length - 2
  | strip vs => vs.length - 2
  | extendGeometry _ ts => ts.length
  | openBatch _ => 0
  | openBatchOptimized _ => 0
  | closeBatch => 0

/-- Apply one public call to a stream. -/
def apply [DecidableEq B] (s : VertexStream V B) : StreamOp V B → VertexStream V B
  | tri v0 v1 v2 => s.triangle v0 v1 v2
  | quadOp v0 v1 v2 v3 => s.quad v0 v1 v2 v3
  | fan vs => s.triangle_fan vs
  | strip vs => s.triangle_strip vs
  | extendGeometry vs ts => s.extendWith vs ts
  | openBatch data => s.batch data
  | openBatchOptimized data => s.batch_optimized data
  | closeBatch => s.batch_end

/-- Run a list of public calls. -/
def run [DecidableEq B] (s : VertexStream V B) : List (StreamOp V B) → VertexStream V B
  | [] => s
  | op :: rest => run (apply s op) rest

/-- Some batch is opened before any triangle is appended: every shape call
preceding the first `batch`/`batch_optimized` call appends no triangle. -/
def batchFirst : List (StreamOp V B) → Bool
  | [] => true
  | openBatch _ :: _ => true
  | openBatchOptimized _ :: _ => true
  | closeBatch :: rest => batchFirst rest
  | op :: rest => op.triangleCount == 0 && batchFirst rest

end StreamOp

/-! ## The batch partition predicate -/

/-- `chainFrom l lo n`: the ranges in `l` tile `[lo, n)` exactly — each
range starts where the previous one ended (so they are sorted,
non-overlapping and gap-free), every range is non-degenerate
(`start ≤ stop`), and the last one ends exactly at `n`. -/
def chainFrom {B : Type} : List (BatchRange B) → Nat → Nat → Bool
  | [], lo, n => lo == n
  | br :: rest, lo, n =>
    br.start == lo && Nat.ble br.start br.stop && chainFrom rest br.stop n

/-- Mid-run variant of `chainFrom`: the last range's end may lag behind
the current triangle count `n` (the last batch is still open). -/
def midChainFrom {B : Type} : List (BatchRange B) → Nat → Nat → Bool
  | [], lo, n => Nat.ble lo n
  | br :: rest, lo, n =>
    br.start == lo && Nat.ble br.start br.stop && midChainFrom rest br.stop n

/-- Invariant maintained by every public batch/shape-append call when a
batch is opened before any triangle: either no batch has been opened yet
and no triangle exists, or the batch ranges chain contiguously from 0 with
the still-open last range ending at or before the triangle count. -/
def midInv {B : Type} (l : List (BatchRange B)) (n : Nat) : Bool :=
  match l with
  | [] => n == 0
  | _ :: _ => midChainFrom l 0 n

/-- A concrete public build trace for the C1 witness: a batch is opened
before any triangle. -/
def c1Ops : List (StreamOp Unit Nat) :=
  [StreamOp.openBatch 0, StreamOp.tri () () (), StreamOp.openBatchOptimized 0,
   StreamOp.tri () () (), StreamOp.openBatchOptimized 1, StreamOp.closeBatch,
   StreamOp.fan [(), (), (), (), ()]]

/-- A concrete public build trace refuting the unconditional form of the
batch partition contract: one triangle is appended before the first batch
is opened. -/
def c1BadOps : List (StreamOp Unit Nat) :=
  [StreamOp.tri () () (), StreamOp.openBatch 0]

/-- The C2 witness instance: a source stream with one vertex, one
triangle and one batch. -/
def c2S0 : VertexStream Nat Nat := ⟨[10], [⟨0, 0, 0⟩], [⟨5, 0, 1⟩]⟩

/-- The C2 witness instance after appending two vertices, one triangle
referring to them, and one batch range past the snapshot. -/
def c2S1 : VertexStream Nat Nat :=
  ⟨[10, 20, 30], [⟨0, 0, 0⟩, ⟨1, 2, 2⟩], [⟨5, 0, 1⟩, ⟨7, 1, 2⟩]⟩

/-! ## The state-diffed GPU submission step (`spitfire-glow`)

`GlowBatch::draw` is modelled as a pure function from (batch, triangle
range, previous batch) to the list of GPU calls it issues, and
`GlowRenderer::render`'s loop as a fold over the batch list threading the
"previous batch" state from the default.  GL enum values are the standard
OpenGL constants.  Program/texture handles become `Nat`; uniform values
stay an abstract type `U` with decidable equality (the source compares
them with `PartialEq`); `get_uniform_location` becomes an abstract
`locate` function (a `None` location skips the upload, as in the
source). -/

def SRC_ALPHA : Nat := 770
def ONE_MINUS_SRC_ALPHA : Nat := 771
def GL_ONE : Nat := 1
def GL_ZERO : Nat := 0
def DST_COLOR : Nat := 774
def TEXTURE0 : Nat := 33984
def TEXTURE_2D_ARRAY : Nat := 35866
def TEXTURE_MIN_FILTER : Nat := 10241
def TEXTURE_MAG_FILTER : Nat := 10240

/-- `GlowBlending`. -/
inductive GlowBlending where
  | noBlend
  | alpha
  | multiply
  | additive
deriving DecidableEq, Repr

/-- `GlowBlending::into_gl`: the `(source, destination)` blend factors. -/
def GlowBlending.into_gl : GlowBlending → Option (Nat × Nat)
  | .noBlend => none
  | .alpha => some (SRC_ALPHA, ONE_MINUS_SRC_ALPHA)
  | .multiply => some (DST_COLOR, GL_ZERO)
  | .additive => some (GL_ONE, GL_ONE)

/-- `GlowBatch`: the resolved render-state descriptor.  `textures` entries
are `(texture object, texture target, min filter, mag filter)`; `scissor`
is `[x, y, width, height]`. -/
structure GlowBatch (U : Type) where
  shader_program : Option Nat
  uniforms : List (String × U)
  textures : List (Nat × Nat × Int × Int)
  blending : Option (Nat × Nat)
  scissor : Option (Int × Int × Int × Int)
  wireframe : Bool
deriving DecidableEq

/-- `GlowBatch::default()`: no shader, no uniforms, no textures, no
blending, no scissor, fill mode. -/
def GlowBatch.defaultBatch {U : Type} : GlowBatch U :=
  ⟨none, [], [], none, none, false⟩

/-- One GPU call issued by the diffed draw step. -/
inductive GLCall (U : Type) where
  | useProgram (program : Nat)
  | uniformUpload (location : Nat) (value : U)
  | activeTexture (unit : Nat)
  | bindTexture (target texture : Nat)
  | texParameter (target pname : Nat) (value : Int)
  | enableBlend
  | blendFunc (source destination : Nat)
  | disableBlend
  | enableScissor
  | scissorRect (x y w h : Int)
  | disableScissor
  | polygonMode (wireframe : Bool)
  | drawElements (indexCount byteOffset : Nat)
deriving DecidableEq, Repr

/-- The uniform-upload loop of `GlowBatch::draw`: each uniform is
uploaded when the program changed or its value differs from the previous
batch's value under the same name; a missing uniform location skips the
upload. -/
def uniformCalls {U : Type} [DecidableEq U] (locate : Nat → String → Option Nat)
    (program : Nat) (changed : Bool) (uniforms prevUniforms : List (String × U)) :
    List (GLCall U) :=
  uniforms.filterMap fun nv =>
    if changed || (match prevUniforms.lookup nv.1 with
                   | some v => nv.2 != v
                   | none => false) then
      match locate program nv.1 with
      | some location => some (GLCall.uniformUpload location nv.2)
      | none => none
    else none

/-- The three calls that (re)bind one texture unit. -/
def bindTextureCalls {U : Type} (data : Nat × Nat × Int × Int) :
    List (GLCall U) :=
  [GLCall.bindTexture data.2.1 data.1,
   GLCall.texParameter TEXTURE_2D_ARRAY TEXTURE_MIN_FILTER data.2.2.1,
   GLCall.texParameter TEXTURE_2D_ARRAY TEXTURE_MAG_FILTER data.2.2.2]

/-- The texture loop of `GlowBatch::draw`: `active_texture` is issued for
every unit; the bind + filter calls only when the unit's data differs
from the previous batch's entry at the same index (or has none). -/
def textureCalls {U : Type} (textures prevTextures : List (Nat × Nat × Int × Int)) :
    List (GLCall U) :=
  (textures.enum.map fun p =>
    GLCall.activeTexture (TEXTURE0 + p.1) ::
      (match prevTextures.get? p.1 with
       | some dprev => if dprev ≠ p.2 then bindTextureCalls p.2 else []
       | none => bindTextureCalls p.2)).flatten

/-- The blend block of `GlowBatch::draw`: emitted only when the blending
field differs from the previous batch's. -/
def blendCalls {U : Type} (blending prevBlending : Option (Nat × Nat)) :
    List (GLCall U) :=
  if blending ≠ prevBlending then
    match blending with
    | some sd => [GLCall.enableBlend, GLCall.blendFunc sd.1 sd.2]
    | none => [GLCall.disableBlend]
  else []

/-- The scissor block of `GlowBatch::draw`. -/
def scissorCalls {U : Type} (scissor prevScissor : Option (Int × Int × Int × Int)) :
    List (GLCall U) :=
  if scissor ≠ prevScissor then
    match scissor with
    | some r => [GLCall.enableScissor, GLCall.scissorRect r.1 r.2.1 r.2.2.1 r.2.2.2]
    | none => [GLCall.disableScissor]
  else []

/-- The polygon-mode block of `GlowBatch::draw`. -/
def wireframeCalls {U : Type} (wireframe prevWireframe : Bool) :
    List (GLCall U) :=
  if wireframe ≠ prevWireframe then [GLCall.polygonMode wireframe] else []

/-- `GlowBatch::draw(context, range, prev)`: the full call list.  Note
`use_program` is issued unconditionally whenever the batch carries a
shader program — only the uniform uploads are gated on `changed`.  The
final call is one indexed-triangle draw of `range.len() * 3` indices at
byte offset `range.start * size_of(u32) * 3`. -/
def GlowBatch.drawCalls {U : Type} [DecidableEq U]
    (locate : Nat → String → Option Nat) (b : GlowBatch U)
    (start stop : Nat) (prev : GlowBatch U) : List (GLCall U) :=
  (match b.shader_program with
   | none => []
   | some program =>
     let changed := match prev.shader_program with
       | some prevProgram => program != prevProgram
       | none => true
     GLCall.useProgram program ::
       uniformCalls locate program changed b.uniforms prev.uniforms)
  ++ textureCalls b.textures prev.textures
  ++ blendCalls b.blending prev.blending
  ++ scissorCalls b.scissor prev.scissor
  ++ wireframeCalls b.wireframe prev.wireframe
  ++ [GLCall.drawElements ((stop - start) * 3) (start * 4 * 3)]

/-- The batch loop of `GlowRenderer::render`: each batch is drawn diffed
against the previous one; the first against the empty default. -/
def renderBatchCalls {U : Type} [DecidableEq U]
    (locate : Nat → String → Option Nat) (prev : GlowBatch U) :
    List (GlowBatch U × Nat × Nat) → List (GLCall U)
  | [] => []
  | bse :: rest =>
    bse.1.drawCalls locate bse.2.1 bse.2.2 prev ++
      renderBatchCalls locate bse.1 rest

/-- `GlowRenderer::render`'s diffed submission over a finalized batch
list (the one-time mesh upload is graphics-resource plumbing outside the
diffing step and not part of the call trace). -/
def renderTrace {U : Type} [DecidableEq U] (locate : Nat → String → Option Nat)
    (batches : List (GlowBatch U × Nat × Nat)) : List (GLCall U) :=
  renderBatchCalls locate GlowBatch.defaultBatch batches

/-- Count of shader-bind (`use_program`) calls in a trace. -/
def countUseProgram {U : Type} (trace : List (GLCall U)) : Nat :=
  trace.countP fun c => match c with
    | GLCall.useProgram _ => true
    | _ => false

/-- Count of blend-mode calls (`blend_func`, or `disable(BLEND)` which
sets "no blending") in a trace. -/
def countBlendMode {U : Type} (trace : List (GLCall U)) : Nat :=
  trace.countP fun c => match c with
    | GLCall.blendFunc _ _ => true
    | GLCall.disableBlend => true
    | _ => false

/-- Is this call part of the blend block (`enable(BLEND)`, `blend_func`,
`disable(BLEND)`)? -/
def GLCall.isBlendCall {U : Type} : GLCall U → Bool
  | GLCall.enableBlend => true
  | GLCall.blendFunc _ _ => true
  | GLCall.disableBlend => true
  | _ => false

/-- Is this call part of the scissor block? -/
def GLCall.isScissorCall {U : Type} : GLCall U → Bool
  | GLCall.enableScissor => true
  | GLCall.scissorRect _ _ _ _ => true
  | GLCall.disableScissor => true
  | _ => false

/-- Is this call a polygon-mode change? -/
def GLCall.isPolygonMode {U : Type} : GLCall U → Bool
  | GLCall.polygonMode _ => true
  | _ => false

/-- The indexed draws of a trace, as `(index count, byte offset)`. -/
def drawList {U : Type} (trace : List (GLCall U)) : List (Nat × Nat) :=
  trace.filterMap fun c => match c with
    | GLCall.drawElements n o => some (n, o)
    | _ => none

/-- C3 scenario batch A: shader X (program 7), alpha blending, triangles
`0..2`. -/
def c3BatchA : GlowBatch Unit :=
  ⟨some 7, [], [], GlowBlending.alpha.into_gl, none, false⟩

/-- C3 scenario batch B: shader X (program 7), additive blending,
triangles `2..5`. -/
def c3BatchB : GlowBatch Unit :=
  ⟨some 7, [], [], GlowBlending.additive.into_gl, none, false⟩

/-- The diffed call trace of the C3 scenario. -/
def c3Trace : List (GLCall Unit) :=
  renderTrace (fun _ _ => none) [(c3BatchA, 0, 2), (c3BatchB, 2, 5)]

/-! ## The glyph atlas (`spitfire-fontdue`: `TextRenderer`)

The font backend (`fontdue::Font::rasterize_config`) and the bin packer
(`etagere::AtlasAllocator`) are third-party collaborators; they are
abstracted as a pure `raster` function (glyph key to metrics + coverage
bitmap) and an `AtlasOps` record (fresh page construction and rectangle
allocation inside one page, which may fail).  The cache-management logic
of `TextRenderer::include` is modelled faithfully over these.  A call
trace of `AtlasEvent`s records each rasterization and each page-rectangle
allocation performed (the spec's "call-counting rasterizer double").
Glyph positions carry exact rational coordinates (`f32` in the source; no
claim under study depends on floating-point rounding). -/

/-- `etagere`'s `Rect<u32>` as used by the renderer: origin plus size;
`min_x = x`, `max_x = x + w`, and likewise for `y`/`h`. -/
structure URect where
  x : Nat
  y : Nat
  w : Nat
  h : Nat
deriving DecidableEq, Repr

/-- `TextRendererGlyph`: the cached page index and pixel rectangle. -/
structure TextRendererGlyph where
  page : Nat
  rectangle : URect
deriving DecidableEq, Repr

/-- The glyph metrics the rasterizer reports. -/
structure GlyphMetrics where
  width : Nat
  height : Nat
deriving DecidableEq, Repr

/-- One `GlyphPosition` from the layout: its raster key, whether the
character rasterizes to visible coverage (`char_data.rasterize()`), its
layout position/size and user data. -/
structure GlyphPos (K UD : Type) where
  key : K
  rasterizeFlag : Bool
  x : ℚ
  y : ℚ
  width : Nat
  height : Nat
  user_data : UD
deriving DecidableEq, Repr

/-- The abstracted page bin packer: build a fresh page-sized packer, and
try to allocate a `w × h` rectangle inside one packer, yielding the
updated packer and the origin on success. -/
structure AtlasOps (A : Type) where
  newAtlas : Nat → Nat → A
  alloc : A → Nat → Nat → Option (A × Nat × Nat)

/-- `TextRenderer`: the glyph cache, atlas size `[width, height, pages]`,
the page-major pixel buffer, the per-page packers, and the queue of
glyphs ready to render. -/
structure TextRenderer (K UD A : Type) where
  used_glyphs : List (K × TextRendererGlyph)
  atlas_width : Nat
  atlas_height : Nat
  pages : Nat
  image : List Nat
  atlases : List A
  ready_to_render : List (GlyphPos K UD)

/-- Instrumentation event: one rasterizer call or one page-rectangle
allocation. -/
inductive AtlasEvent (K : Type) where
  | rasterized (key : K)
  | allocated (key : K) (page originX originY : Nat)
deriving DecidableEq, Repr

/-- `Vec::resize(n, 0)` (the buffer only ever grows here). -/
def listResize (l : List Nat) (n : Nat) : List Nat :=
  l.take n ++ List.replicate (n - l.length) 0

/-- The `find_map` over existing pages, in page order: try to allocate in
each page's packer, returning the updated packer list, the page index and
the origin of the first success. -/
def findAllocAux {A : Type} (ops : AtlasOps A) (w h : Nat) :
    List A → Nat → Option (List A × Nat × Nat × Nat)
  | [], _ => none
  | a :: rest, page =>
    match ops.alloc a w h with
    | some r => some (r.1 :: rest, page, r.2.1, r.2.2)
    | none =>
      match findAllocAux ops w h rest (page + 1) with
      | some r => some (a :: r.1, r.2)
      | none => none

/-- The allocation step of `TextRenderer::include`: try each existing
page, else create a fresh page-sized packer, allocate in it, push it,
bump the page count and grow the pixel buffer by one page.  Fails (and
caches nothing) only if the rectangle does not fit a fresh page. -/
def attemptAllocation {K UD A : Type} (ops : AtlasOps A)
    (st : TextRenderer K UD A) (w h : Nat) :
    Option (TextRenderer K UD A × Nat × Nat × Nat) :=
  match findAllocAux ops w h st.atlases 0 with
  | some r => some ({ st with atlases := r.1 }, r.2)
  | none =>
    let a := ops.newAtlas st.atlas_width st.atlas_height
    match ops.alloc a w h with
    | some r =>
      some ({ st with
          atlases := st.atlases ++ [r.1]
          pages := st.pages + 1
          image := listResize st.image
            (st.atlas_width * st.atlas_height * (st.pages + 1)) },
        st.atlases.length, r.2.1, r.2.2)
    | none => none

/-- The coverage-copy loop: pixel `index` of the coverage bitmap lands at
`page*w*h + (oy + index / gw)*w + (ox + index % gw)` in the page-major
image buffer. -/
def writeCoverage {K UD A : Type} (st : TextRenderer K UD A)
    (page ox oy gw : Nat) (coverage : List Nat) : TextRenderer K UD A :=
  { st with image := coverage.enum.foldl (fun img p =>
      img.set (page * st.atlas_width * st.atlas_height +
        (oy + p.1 / gw) * st.atlas_width + (ox + p.1 % gw)) p.2) st.image }

/-- The body of `TextRenderer::include`'s per-glyph loop: queue the glyph
if it rasterizes; then, only when its key misses the cache, call the
rasterizer, and — again only for rasterizing glyphs — allocate a
rectangle (with the 1-pixel margin), copy the coverage and insert the
cache record.  Returns the new state plus the instrumentation events. -/
def includeGlyph {K UD A : Type} [DecidableEq K] (ops : AtlasOps A)
    (raster : K → GlyphMetrics × List Nat) (st : TextRenderer K UD A)
    (g : GlyphPos K UD) : TextRenderer K UD A × List (AtlasEvent K) :=
  let st1 := if g.rasterizeFlag then
    { st with ready_to_render := st.ready_to_render ++ [g] } else st
  match st1.used_glyphs.lookup g.key with
  | some _ => (st1, [])
  | none =>
    let mc := raster g.key
    if g.rasterizeFlag then
      match attemptAllocation ops st1 (mc.1.width + 1) (mc.1.height + 1) with
      | some r =>
        let st3 := writeCoverage r.1 r.2.1 r.2.2.1 r.2.2.2 mc.1.width mc.2
        ({ st3 with used_glyphs := st3.used_glyphs ++
            [(g.key, ⟨r.2.1, ⟨r.2.2.1, r.2.2.2, mc.1.width, mc.1.height⟩⟩)] },
         [AtlasEvent.rasterized g.key,
          AtlasEvent.allocated g.key r.2.1 r.2.2.1 r.2.2.2])
      | none => (st1, [AtlasEvent.rasterized g.key])
    else (st1, [AtlasEvent.rasterized g.key])

/-- `TextRenderer::glyph(key)`: the cache lookup. -/
def glyphQuery {K UD A : Type} [DecidableEq K] (st : TextRenderer K UD A)
    (key : K) : Option TextRendererGlyph :=
  st.used_glyphs.lookup key

/-- The recording text vertex: `TextVertex::apply` captures the position,
3-component texture coordinate and user data handed to it. -/
structure TextVtx (UD : Type) where
  position : ℚ × ℚ
  tex_coord : ℚ × ℚ × ℚ
  user_data : UD
deriving DecidableEq, Repr

/-- One iteration of `render_to_stream`'s drain loop: a queued glyph
whose key still resolves appends one quad whose corners carry
`(min/max x / atlas width, min/max y / atlas height, page)` texture
coordinates — the page coordinate is the raw page index (`data.page as
f32` in the source).  An unresolved key appends nothing. -/
def glyphQuadStep {K UD A D : Type} [DecidableEq K]
    (st : TextRenderer K UD A) (acc : VertexStream (TextVtx UD) D)
    (g : GlyphPos K UD) : VertexStream (TextVtx UD) D :=
  match st.used_glyphs.lookup g.key with
  | some data =>
    acc.quad
      ⟨(g.x, g.y),
       ((data.rectangle.x : ℚ) / (st.atlas_width : ℚ),
        (data.rectangle.y : ℚ) / (st.atlas_height : ℚ),
        (data.page : ℚ)), g.user_data⟩
      ⟨(g.x + (g.width : ℚ), g.y),
       (((data.rectangle.x + data.rectangle.w : Nat) : ℚ) / (st.atlas_width : ℚ),
        (data.rectangle.y : ℚ) / (st.atlas_height : ℚ),
        (data.page : ℚ)), g.user_data⟩
      ⟨(g.x + (g.width : ℚ), g.y + (g.height : ℚ)),
       (((data.rectangle.x + data.rectangle.w : Nat) : ℚ) / (st.atlas_width : ℚ),
        ((data.rectangle.y + data.rectangle.h : Nat) : ℚ) / (st.atlas_height : ℚ),
        (data.page : ℚ)), g.user_data⟩
      ⟨(g.x, g.y + (g.height : ℚ)),
       ((data.rectangle.x : ℚ) / (st.atlas_width : ℚ),
        ((data.rectangle.y + data.rectangle.h : Nat) : ℚ) / (st.atlas_height : ℚ),
        (data.page : ℚ)), g.user_data⟩
  | none => acc

/-- `TextRenderer::render_to_stream`: drain the queued glyphs into the
stream, one quad per glyph whose key still resolves in the cache. -/
def render_to_stream {K UD A D : Type} [DecidableEq K]
    (st : TextRenderer K UD A) (stream : VertexStream (TextVtx UD) D) :
    TextRenderer K UD A × VertexStream (TextVtx UD) D :=
  ({ st with ready_to_render := [] },
   st.ready_to_render.foldl (glyphQuadStep st) stream)

/-- C7 witness instances: a call-counting setup with a trivially
succeeding single-slot allocator. -/
def c7Ops : AtlasOps Unit := ⟨fun _ _ => (), fun _ _ _ => some ((), 0, 0)⟩

/-- C7 rasterizer double: every key rasterizes to a 1×1 coverage. -/
def c7Raster : Nat → GlyphMetrics × List Nat := fun _ => (⟨1, 1⟩, [255])

/-- C7: an empty 4×4 text renderer. -/
def c7St0 : TextRenderer Nat Unit Unit := ⟨[], 4, 4, 0, [], [], []⟩

/-- C7: a renderable glyph with key 5. -/
def c7Glyph : GlyphPos Nat Unit := ⟨5, true, 0, 0, 1, 1, ()⟩

/-- C7 counterexample instance: a glyph (such as a space) whose character
does not rasterize to visible coverage. -/
def c7Space : GlyphPos Nat Unit := ⟨5, false, 0, 0, 0, 0, ()⟩

/-- C8 counterexample instance: atlas 2×2 with 2 pages; the cache holds
key 0 at page 1, rectangle (0,0) 1×1; one queued glyph with key 0. -/
def c8St : TextRenderer Nat Unit Unit :=
  ⟨[(0, ⟨1, ⟨0, 0, 1, 1⟩⟩)], 2, 2, 2, [], [], [⟨0, true, 0, 0, 1, 1, ()⟩]⟩

/-! ## Tile map location helpers (`spitfire-draw`: `TileMap`)

Only the fields and methods the claims touch are modelled (`include_ids`
/ `exclude_ids` filter sets and the quad emitter do not affect the
location arithmetic). -/

/-- `Vec2<usize>`: a 2-D tile location / size. -/
structure TileLoc where
  x : Nat
  y : Nat
deriving DecidableEq, Repr

/-- `TileMap`: grid size (`size.x` is the width, `size.y` the height) and
the row-major tile id buffer. -/
structure TileMap where
  size : TileLoc
  buffer : List Nat
deriving DecidableEq, Repr

/-- `TileMap::new(size, fill_id)`. -/
def TileMap.ofFill (size : TileLoc) (fill : Nat) : TileMap :=
  ⟨size, List.replicate (size.x * size.y) fill⟩

/-- `TileMap::index(location)`, exactly as in the source:
`location.y * self.size.x + location.y` — note `location.y` appears
twice. -/
def TileMap.index (m : TileMap) (location : TileLoc) : Nat :=
  location.y * m.size.x + location.y

/-- `TileMap::location(index)`, exactly as in the source: the `x`
component divides by `size.x` but the `y` component divides by
`size.y` (the height, not the width). -/
def TileMap.location (m : TileMap) (index : Nat) : TileLoc :=
  ⟨index % m.size.x, index / m.size.y⟩

/-- Modelled from the spec: the corrected 2-D-location-to-linear-index
form `y * width + x` that the spec prescribes (and that a later revision
of the repository adopts); the revision itself is not under `src/`. -/
def TileMap.index_spec (m : TileMap) (location : TileLoc) : Nat :=
  location.y * m.size.x + location.x

section ChainLemmas

variable {B : Type}

lemma midChainFrom_mono {l : List (BatchRange B)} {lo n n' : Nat}
    (h : midChainFrom l lo n = true) (hn : n ≤ n') :
    midChainFrom l lo n' = true := by
  induction l generalizing lo with
  | nil =>
    simp only [midChainFrom, Nat.ble_eq] at h ⊢
    exact h.trans hn
  | cons br rest ih =>
    simp only [midChainFrom, Bool.and_eq_true] at h ⊢
    exact ⟨⟨h.1.1, h.1.2⟩, ih h.2⟩

lemma chainFrom_toMid {l : List (BatchRange B)} {lo n : Nat}
    (h : chainFrom l lo n = true) : midChainFrom l lo n = true := by
  induction l generalizing lo with
  | nil =>
    simp only [chainFrom, beq_iff_eq] at h
    simp [midChainFrom, h]
  | cons br rest ih =>
    simp only [chainFrom, midChainFrom, Bool.and_eq_true] at h ⊢
    exact ⟨⟨h.1.1, h.1.2⟩, ih h.2⟩

lemma setLastStop_ne_nil {l : List (BatchRange B)} (h : l ≠ []) (n : Nat) :
    VertexStream.setLastStop n l ≠ [] := by
  match l with
  | [] => exact absurd rfl h
  | [br] => simp [VertexStream.setLastStop]
  | br :: b2 :: rest => simp [VertexStream.setLastStop]

lemma midChainFrom_cons {br : BatchRange B} {rest : List (BatchRange B)}
    {lo n : Nat} :
    midChainFrom (br :: rest) lo n =
      (br.start == lo && Nat.ble br.start br.stop &&
        midChainFrom rest br.stop n) := rfl

lemma chainFrom_cons {br : BatchRange B} {rest : List (BatchRange B)}
    {lo n : Nat} :
    chainFrom (br :: rest) lo n =
      (br.start == lo && Nat.ble br.start br.stop &&
        chainFrom rest br.stop n) := rfl

lemma chainFrom_setLastStop {l : List (BatchRange B)} {lo n : Nat}
    (hne : l ≠ []) (h : midChainFrom l lo n = true) :
    chainFrom (VertexStream.setLastStop n l) lo n = true := by
  induction l generalizing lo with
  | nil => exact absurd rfl hne
  | cons br rest ih =>
    rw [midChainFrom_cons, Bool.and_eq_true, Bool.and_eq_true] at h
    obtain ⟨⟨hlo, hse⟩, htail⟩ := h
    cases rest with
    | nil =>
      have h1 : br.start = lo := by simpa using hlo
      have h2 : br.start ≤ br.stop := by simpa using hse
      have h3 : br.stop ≤ n := by
        simpa [midChainFrom, Nat.ble_eq] using htail
      simp only [VertexStream.setLastStop, chainFrom, Bool.and_eq_true,
        Nat.ble_eq, beq_iff_eq]
      exact ⟨⟨h1, h2.trans h3⟩, trivial⟩
    | cons b2 rest2 =>
      simp only [VertexStream.setLastStop]
      rw [chainFrom_cons, Bool.and_eq_true, Bool.and_eq_true]
      exact ⟨⟨hlo, hse⟩, ih (by simp) htail⟩

lemma midChainFrom_push {l : List (BatchRange B)} {lo n : Nat} (d : B)
    (h : chainFrom l lo n = true) :
    midChainFrom (l ++ [⟨d, n, n⟩]) lo n = true := by
  induction l generalizing lo with
  | nil =>
    simp only [chainFrom, beq_iff_eq] at h
    simp [midChainFrom, h]
  | cons br rest ih =>
    simp only [chainFrom, Bool.and_eq_true] at h
    simp only [List.cons_append, midChainFrom, Bool.and_eq_true]
    exact ⟨⟨h.1.1, h.1.2⟩, ih h.2⟩

/-- Appending `k` triangles preserves the mid-run invariant, provided no
triangle is appended while no batch is open. -/
lemma midInv_addTriangles {l : List (BatchRange B)} {n k : Nat}
    (h : midInv l n = true) (h0 : l = [] → k = 0) :
    midInv l (n + k) = true := by
  match l with
  | [] =>
    simp only [midInv, beq_iff_eq] at h ⊢
    simp [h, h0 rfl]
  | br :: rest =>
    simp only [midInv] at h ⊢
    exact midChainFrom_mono h (Nat.le_add_right n k)

/-- `batch_end`'s list update preserves the mid-run invariant. -/
lemma midInv_setLastStop {l : List (BatchRange B)} {n : Nat}
    (h : midInv l n = true) :
    midInv (VertexStream.setLastStop n l) n = true := by
  match l with
  | [] => simpa [VertexStream.setLastStop] using h
  | br :: rest =>
    have hform := chainFrom_setLastStop (l := br :: rest) (by simp) h
    have hmid := chainFrom_toMid hform
    have hne := setLastStop_ne_nil (l := br :: rest) (by simp) n
    match hl : VertexStream.setLastStop n (br :: rest) with
    | [] => exact absurd hl hne
    | x :: xs =>
      rw [hl] at hmid
      simpa [midInv] using hmid

/-- `batch`'s list update (close the last batch, push a fresh empty range
at the current count) preserves the mid-run invariant. -/
lemma midInv_batchPush {l : List (BatchRange B)} {n : Nat} (d : B)
    (h : midInv l n = true) :
    midInv (VertexStream.setLastStop n l ++ [⟨d, n, n⟩]) n = true := by
  match l with
  | [] =>
    simp only [midInv, beq_iff_eq] at h
    subst h
    simp [VertexStream.setLastStop, midInv, midChainFrom]
  | br :: rest =>
    have hform := chainFrom_setLastStop (l := br :: rest) (by simp) h
    have hmid := midChainFrom_push d hform
    have : VertexStream.setLastStop n (br :: rest) ++ [(⟨d, n, n⟩ : BatchRange B)] ≠ [] := by
      simp
    match hl : VertexStream.setLastStop n (br :: rest) ++ [(⟨d, n, n⟩ : BatchRange B)] with
    | [] => exact absurd hl this
    | x :: xs =>
      rw [hl] at hmid
      simpa [midInv] using hmid

end ChainLemmas

section RunInvariant

variable {V B : Type}

lemma batch_batches (s : VertexStream V B) (d : B) :
    (s.batch d).batches =
      VertexStream.setLastStop s.triangles.length s.batches ++
        [⟨d, s.triangles.length, s.triangles.length⟩] := rfl

lemma batch_triangles (s : VertexStream V B) (d : B) :
    (s.batch d).triangles = s.triangles := rfl

lemma batch_batches_ne_nil (s : VertexStream V B) (d : B) :
    (s.batch d).batches ≠ [] := by
  simp [batch_batches]

lemma getLast?_some_ne_nil {l : List (BatchRange B)} {br : BatchRange B}
    (h : l.getLast? = some br) : l ≠ [] := by
  cases l with
  | nil => simp at h
  | cons x xs => simp

variable [DecidableEq B]

lemma batch_optimized_midInv (s : VertexStream V B) (d : B)
    (h : midInv s.batches s.triangles.length = true) :
    midInv (s.batch_optimized d).batches
      (s.batch_optimized d).triangles.length = true := by
  unfold VertexStream.batch_optimized
  cases hl : s.batches.getLast? with
  | none => exact midInv_batchPush d h
  | some br =>
    by_cases hd : br.data = d
    · simp only [hd, if_true]
      exact midInv_setLastStop h
    · simp only [hd, if_false]
      exact midInv_batchPush d h

lemma batch_optimized_batches_ne_nil (s : VertexStream V B) (d : B) :
    (s.batch_optimized d).batches ≠ [] := by
  unfold VertexStream.batch_optimized
  cases hl : s.batches.getLast? with
  | none => exact batch_batches_ne_nil s d
  | some br =>
    by_cases hd : br.data = d
    · simp only [hd, if_true]
      exact setLastStop_ne_nil (getLast?_some_ne_nil hl) _
    · simp only [hd, if_false]
      exact batch_batches_ne_nil s d

/-- Every public batch/shape-append call preserves the mid-run invariant,
as long as no triangle is ever appended while no batch is open. -/
lemma run_midInv (ops : List (StreamOp V B)) (s : VertexStream V B)
    (h : midInv s.batches s.triangles.length = true)
    (hcond : s.batches ≠ [] ∨ StreamOp.batchFirst ops = true) :
    midInv (StreamOp.run s ops).batches
      (StreamOp.run s ops).triangles.length = true := by
  induction ops generalizing s with
  | nil => exact h
  | cons op rest ih =>
    show midInv (StreamOp.run (StreamOp.apply s op) rest).batches
      (StreamOp.run (StreamOp.apply s op) rest).triangles.length = true
    cases op with
    | tri v0 v1 v2 =>
      have hb : (StreamOp.apply s (StreamOp.tri v0 v1 v2)).batches = s.batches := rfl
      have ht : (StreamOp.apply s (StreamOp.tri v0 v1 v2)).triangles.length =
          s.triangles.length + 1 := by
        simp [StreamOp.apply, VertexStream.triangle]
      rcases hcond with hne | hbf
      · refine ih _ ?_ (Or.inl (by rw [hb]; exact hne))
        rw [hb, ht]
        exact midInv_addTriangles h fun hnil => absurd hnil hne
      · simp [StreamOp.batchFirst, StreamOp.triangleCount] at hbf
    | quadOp v0 v1 v2 v3 =>
      have hb : (StreamOp.apply s (StreamOp.quadOp v0 v1 v2 v3)).batches = s.batches := rfl
      have ht : (StreamOp.apply s (StreamOp.quadOp v0 v1 v2 v3)).triangles.length =
          s.triangles.length + 2 := by
        simp [StreamOp.apply, VertexStream.quad]
      rcases hcond with hne | hbf
      · refine ih _ ?_ (Or.inl (by rw [hb]; exact hne))
        rw [hb, ht]
        exact midInv_addTriangles h fun hnil => absurd hnil hne
      · simp [StreamOp.batchFirst, StreamOp.triangleCount] at hbf
    | fan vs =>
      have hb : (StreamOp.apply s (StreamOp.fan vs)).batches = s.batches := rfl
      have ht : (StreamOp.apply s (StreamOp.fan vs)).triangles.length =
          s.triangles.length + (vs.length - 2) := by
        simp [StreamOp.apply, VertexStream.triangle_fan, VertexStream.fanTriangles]
      rcases hcond with hne | hbf
      · refine ih _ ?_ (Or.inl (by rw [hb]; exact hne))
        rw [hb, ht]
        exact midInv_addTriangles h fun hnil => absurd hnil hne
      · simp only [StreamOp.batchFirst, StreamOp.triangleCount,
          Bool.and_eq_true, beq_iff_eq] at hbf
        refine ih _ ?_ (Or.inr hbf.2)
        rw [hb, ht]
        exact midInv_addTriangles h fun _ => hbf.1
    | strip vs =>
      have hb : (StreamOp.apply s (StreamOp.strip vs)).batches = s.batches := rfl
      have ht : (StreamOp.apply s (StreamOp.strip vs)).triangles.length =
          s.triangles.length + (vs.length - 2) := by
        simp [StreamOp.apply, VertexStream.triangle_strip, VertexStream.stripTriangles]
      rcases hcond with hne | hbf
      · refine ih _ ?_ (Or.inl (by rw [hb]; exact hne))
        rw [hb, ht]
        exact midInv_addTriangles h fun hnil => absurd hnil hne
      · simp only [StreamOp.batchFirst, StreamOp.triangleCount,
          Bool.and_eq_true, beq_iff_eq] at hbf
        refine ih _ ?_ (Or.inr hbf.2)
        rw [hb, ht]
        exact midInv_addTriangles h fun _ => hbf.1
    | extendGeometry vs ts =>
      have hb : (StreamOp.apply s (StreamOp.extendGeometry vs ts)).batches = s.batches := rfl
      have ht : (StreamOp.apply s (StreamOp.extendGeometry vs ts)).triangles.length =
          s.triangles.length + ts.length := by
        simp [StreamOp.apply, VertexStream.extendWith]
      rcases hcond with hne | hbf
      · refine ih _ ?_ (Or.inl (by rw [hb]; exact hne))
        rw [hb, ht]
        exact midInv_addTriangles h fun hnil => absurd hnil hne
      · simp only [StreamOp.batchFirst, StreamOp.triangleCount,
          Bool.and_eq_true, beq_iff_eq] at hbf
        refine ih _ ?_ (Or.inr hbf.2)
        rw [hb, ht]
        exact midInv_addTriangles h fun _ => hbf.1
    | openBatch d =>
      refine ih _ ?_ (Or.inl (batch_batches_ne_nil s d))
      show midInv (s.batch d).batches (s.batch d).triangles.length = true
      rw [batch_batches, batch_triangles]
      exact midInv_batchPush d h
    | openBatchOptimized d =>
      exact ih _ (batch_optimized_midInv s d h)
        (Or.inl (batch_optimized_batches_ne_nil s d))
    | closeBatch =>
      have hmid : midInv (s.batch_end).batches (s.batch_end).triangles.length = true := by
        show midInv (VertexStream.setLastStop s.triangles.length s.batches)
          s.triangles.length = true
        exact midInv_setLastStop h
      refine ih _ hmid ?_
      rcases hcond with hne | hbf
      · exact Or.inl (setLastStop_ne_nil hne _)
      · exact Or.inr (by simpa [StreamOp.batchFirst] using hbf)

omit [DecidableEq B] in
/-- Finalizing (`batch_end`) a stream that satisfies the mid-run invariant
yields batch ranges that tile `[0, triangle count)` exactly. -/
lemma midInv_finalize {l : List (BatchRange B)} {n : Nat}
    (h : midInv l n = true) :
    chainFrom (VertexStream.setLastStop n l) 0 n = true := by
  match l with
  | [] =>
    have hn : n = 0 := by simpa [midInv] using h
    subst hn
    simp [VertexStream.setLastStop, chainFrom]
  | br :: rest => exact chainFrom_setLastStop (by simp) (by simpa [midInv] using h)

end RunInvariant

/-! ## Claims about the geometry batching core -/

/-- C1 (amended): for every stream built from empty through the public
batch / batch_optimized / shape-append API in which some batch is opened
before any triangle is appended, finalization (`batch_end`, and likewise
the implicit `batch_end` of `drain`) leaves `batches` as a sorted,
non-overlapping, gap-free partition of `[0, triangles.len())` (the
`chainFrom _ 0 _` predicate).  The spec's unconditional form (without the
batch-before-triangle hypothesis) is refuted by
`c1_partition_counterexample`. -/
theorem c1_partition_after_finalize {V B : Type} [DecidableEq B]
    (ops : List (StreamOp V B)) (h : StreamOp.batchFirst ops = true) :
    chainFrom (StreamOp.run VertexStream.empty ops).batch_end.batches 0
        (StreamOp.run VertexStream.empty ops).batch_end.triangles.length = true ∧
    chainFrom (StreamOp.run VertexStream.empty ops).drain.1.2.2 0
        (StreamOp.run VertexStream.empty ops).drain.1.2.1.length = true := by
  have hinv := run_midInv ops VertexStream.empty (by rfl) (Or.inr h)
  have hfin := midInv_finalize hinv
  exact ⟨hfin, hfin⟩

/-- C1 witness: the hypothesis holds and the partition conclusion holds on
a concrete trace mixing `batch`, `batch_optimized`, `triangle`,
`triangle_fan` and `batch_end`. -/
theorem c1_partition_witness :
    StreamOp.batchFirst c1Ops = true ∧
    (chainFrom (StreamOp.run VertexStream.empty c1Ops).batch_end.batches 0
        (StreamOp.run VertexStream.empty c1Ops).batch_end.triangles.length = true ∧
     chainFrom (StreamOp.run VertexStream.empty c1Ops).drain.1.2.2 0
        (StreamOp.run VertexStream.empty c1Ops).drain.1.2.1.length = true) :=
  ⟨by decide, c1_partition_after_finalize c1Ops (by decide)⟩

/-- C1 counterexample: the claim's unconditional reading ("for every
finalized stream built through the public batch/batch_optimized/
shape-append API the batches partition `[0, triangles.len())`") is false:
appending one triangle before the first batch leaves triangle 0 outside
every batch range. -/
theorem c1_partition_counterexample :
    chainFrom (StreamOp.run VertexStream.empty c1BadOps).batch_end.batches 0
      (StreamOp.run VertexStream.empty c1BadOps).batch_end.triangles.length
      = false := by decide

section ExtractRoundTrip

variable {V B : Type}

lemma map_offset_sub {v : Nat} {ts : List Triangle}
    (h : ∀ t ∈ ts, v ≤ t.a ∧ v ≤ t.b ∧ v ≤ t.c) :
    (ts.map fun t => Triangle.mk (t.a - v) (t.b - v) (t.c - v)).map
      (·.offset v) = ts := by
  induction ts with
  | nil => rfl
  | cons t rest ih =>
    have ht := h t (List.mem_cons_self t rest)
    simp only [List.map_cons, List.map_map]
    rw [List.map_map] at ih
    have hrest := ih fun x hx => h x (List.mem_cons_of_mem t hx)
    simp only [Function.comp] at hrest ⊢
    rw [hrest]
    simp [Triangle.offset, Nat.sub_add_cancel ht.1, Nat.sub_add_cancel ht.2.1,
      Nat.sub_add_cancel ht.2.2]

lemma map_shift_sub {n : Nat} {bs : List (BatchRange B)}
    (h : ∀ br ∈ bs, n ≤ br.start ∧ n ≤ br.stop) :
    (bs.map fun br => BatchRange.mk br.data (br.start - n) (br.stop - n)).map
      (fun br => BatchRange.mk br.data (br.start + n) (br.stop + n)) = bs := by
  induction bs with
  | nil => rfl
  | cons br rest ih =>
    have hbr := h br (List.mem_cons_self br rest)
    simp only [List.map_cons, List.map_map]
    rw [List.map_map] at ih
    have hrest := ih fun x hx => h x (List.mem_cons_of_mem br hx)
    simp only [Function.comp] at hrest ⊢
    rw [hrest]
    simp [Nat.sub_add_cancel hbr.1, Nat.sub_add_cancel hbr.2]

end ExtractRoundTrip

/-- C2: token / extract round trip.  Take the token of `s0`, then append
`vs` (K vertices), `ts` (T triangles, necessarily referring to vertices at
or past the snapshot — the suffix contract) and `bs` (B batches whose
ranges start at or past the snapshot's triangle count); `extract(token)`
returns a stream holding exactly the K appended vertices in order, the T
appended triangles re-based by the token's vertex count (adding the count
back recovers the originals), and the B appended batches with their
ranges re-based by the token's triangle count, while the source stream
returns exactly to the token's snapshot (indeed to `s0` itself). -/
theorem c2_extract_round_trip (s0 : VertexStream V B) (vs : List V)
    (ts : List Triangle) (bs : List (BatchRange B)) (s1 : VertexStream V B)
    (hs1 : s1 = ⟨s0.vertices ++ vs, s0.triangles ++ ts, s0.batches ++ bs⟩)
    (hts : ∀ t ∈ ts, s0.vertices.length ≤ t.a ∧ s0.vertices.length ≤ t.b ∧
      s0.vertices.length ≤ t.c)
    (hbs : ∀ br ∈ bs, s0.triangles.length ≤ br.start ∧
      s0.triangles.length ≤ br.stop) :
    (s1.extract s0.token).2.vertices = vs ∧
    (s1.extract s0.token).2.triangles =
      ts.map (fun t => ⟨t.a - s0.vertices.length, t.b - s0.vertices.length,
        t.c - s0.vertices.length⟩) ∧
    ((s1.extract s0.token).2.triangles).map (·.offset s0.vertices.length) = ts ∧
    ((s1.extract s0.token).2.batches).map
      (fun br => BatchRange.mk br.data (br.start + s0.triangles.length)
        (br.stop + s0.triangles.length)) = bs ∧
    (s1.extract s0.token).2.vertices.length = vs.length ∧
    (s1.extract s0.token).2.triangles.length = ts.length ∧
    (s1.extract s0.token).2.batches.length = bs.length ∧
    (s1.extract s0.token).1 = s0 ∧
    (s1.extract s0.token).1.vertices.length = s0.token.vertices ∧
    (s1.extract s0.token).1.triangles.length = s0.token.triangles ∧
    (s1.extract s0.token).1.batches.length = s0.token.batches := by
  subst hs1
  refine ⟨?_, ?_, ?_, ?_, ?_, ?_, ?_, ?_, ?_, ?_, ?_⟩
  · simp only [VertexStream.extract, VertexStream.token, List.drop_left]
  · simp only [VertexStream.extract, VertexStream.token, List.drop_left]
  · simp only [VertexStream.extract, VertexStream.token, List.drop_left]
    exact map_offset_sub hts
  · simp only [VertexStream.extract, VertexStream.token, List.drop_left]
    exact map_shift_sub hbs
  · simp [VertexStream.extract, VertexStream.token, List.drop_left]
  · simp [VertexStream.extract, VertexStream.token, List.drop_left]
  · simp [VertexStream.extract, VertexStream.token, List.drop_left]
  · simp only [VertexStream.extract, VertexStream.token, List.take_left]
  · simp [VertexStream.extract, VertexStream.token, List.take_left]
  · simp [VertexStream.extract, VertexStream.token, List.take_left]
  · simp [VertexStream.extract, VertexStream.token, List.take_left]

/-- C2 witness: the round trip at a concrete stream and suffix. -/
theorem c2_extract_round_trip_witness :
    (c2S1 = ⟨c2S0.vertices ++ [20, 30], c2S0.triangles ++ [⟨1, 2, 2⟩],
      c2S0.batches ++ [⟨7, 1, 2⟩]⟩) ∧
    (∀ t ∈ [Triangle.mk 1 2 2], c2S0.vertices.length ≤ t.a ∧
      c2S0.vertices.length ≤ t.b ∧ c2S0.vertices.length ≤ t.c) ∧
    (∀ br ∈ [BatchRange.mk 7 1 2], c2S0.triangles.length ≤ br.start ∧
      c2S0.triangles.length ≤ br.stop) ∧
    (c2S1.extract c2S0.token).2.vertices = [20, 30] ∧
    (c2S1.extract c2S0.token).1 = c2S0 :=
  ⟨by decide, by decide, by decide,
   (c2_extract_round_trip c2S0 [20, 30] [⟨1, 2, 2⟩] [⟨7, 1, 2⟩] c2S1
     (by decide) (by decide) (by decide)).1,
   (c2_extract_round_trip c2S0 [20, 30] [⟨1, 2, 2⟩] [⟨7, 1, 2⟩] c2S1
     (by decide) (by decide) (by decide)).2.2.2.2.2.2.2.1⟩

section BatchOptimized

variable {V B : Type}

lemma setLastStop_length (n : Nat) (l : List (BatchRange B)) :
    (VertexStream.setLastStop n l).length = l.length := by
  induction l with
  | nil => rfl
  | cons br rest ih =>
    cases rest with
    | nil => rfl
    | cons b2 r2 => simpa [VertexStream.setLastStop] using ih

lemma setLastStop_getLast? (n : Nat) {l : List (BatchRange B)}
    {br : BatchRange B} (h : l.getLast? = some br) :
    (VertexStream.setLastStop n l).getLast? =
      some ⟨br.data, br.start, n⟩ := by
  induction l with
  | nil => simp at h
  | cons x rest ih =>
    cases rest with
    | nil =>
      have hx : x = br := by simpa using h
      subst hx
      rfl
    | cons b2 r2 =>
      have h' : (b2 :: r2).getLast? = some br := by
        simpa [List.getLast?_cons_cons] using h
      have hcons : VertexStream.setLastStop n (x :: b2 :: r2) =
          x :: VertexStream.setLastStop n (b2 :: r2) := rfl
      obtain ⟨y, ys, hy⟩ :=
        List.exists_cons_of_ne_nil (setLastStop_ne_nil (l := b2 :: r2) (by simp) n)
      rw [hcons, hy, List.getLast?_cons_cons, ← hy]
      exact ih h'

variable [DecidableEq B]

lemma batch_optimized_none_eq (s : VertexStream V B) (S : B)
    (h : s.batches.getLast? = none) : s.batch_optimized S = s.batch S := by
  unfold VertexStream.batch_optimized
  rw [h]

lemma batch_optimized_merge_eq (s : VertexStream V B) {br : BatchRange B}
    (S : B) (h : s.batches.getLast? = some br) (hd : br.data = S) :
    s.batch_optimized S =
      { s with batches :=
          VertexStream.setLastStop s.triangles.length s.batches } := by
  unfold VertexStream.batch_optimized
  rw [h]
  simp [hd]

lemma batch_optimized_push_eq (s : VertexStream V B) {br : BatchRange B}
    (S : B) (h : s.batches.getLast? = some br) (hd : br.data ≠ S) :
    s.batch_optimized S = s.batch S := by
  unfold VertexStream.batch_optimized
  rw [h]
  simp [hd]

lemma batch_optimized_getLast (s : VertexStream V B) (S : B) :
    ∃ st e, (s.batch_optimized S).batches.getLast? = some ⟨S, st, e⟩ := by
  cases h : s.batches.getLast? with
  | none =>
    rw [batch_optimized_none_eq s S h]
    exact ⟨s.triangles.length, s.triangles.length,
      by rw [batch_batches]; exact List.getLast?_concat _⟩
  | some br =>
    by_cases hd : br.data = S
    · rw [batch_optimized_merge_eq s S h hd]
      refine ⟨br.start, s.triangles.length, ?_⟩
      have := setLastStop_getLast? s.triangles.length h
      rw [hd] at this
      exact this
    · rw [batch_optimized_push_eq s S h hd]
      exact ⟨s.triangles.length, s.triangles.length,
        by rw [batch_batches]; exact List.getLast?_concat _⟩

/-- The second `batch_optimized(S)` call merges: it rewrites the last
range's end to the current triangle count and pushes nothing. -/
lemma batch_optimized_second_call (s1 : VertexStream V B) (S : B)
    (st e : Nat) (vs : List V) (ts : List Triangle)
    (h : s1.batches.getLast? = some ⟨S, st, e⟩) :
    ((s1.extendWith vs ts).batch_optimized S).batches =
      VertexStream.setLastStop (s1.extendWith vs ts).triangles.length
        s1.batches := by
  have h2 : (s1.extendWith vs ts).batches.getLast? = some ⟨S, st, e⟩ := h
  rw [batch_optimized_merge_eq (s1.extendWith vs ts) S h2 rfl]
  rfl

end BatchOptimized

/-- C4: `batch_optimized` run-length merging.  Part one: for every stream,
state `S` and triangle appends in between, the second of two consecutive
`batch_optimized(S)` calls adds no batch entry — the batch count is that
after the first call — and the resulting last entry carries state `S` with
its end equal to the triangle count at the second call; when the stream
started with no batches the two calls jointly produce exactly the one
entry `(S, initial count, count at second call)`.  Part two: calling
`batch_optimized` with a state different from the last batch's closes the
prior range at the current triangle count and pushes exactly one new
entry whose (empty) range starts there. -/
theorem c4_batch_optimized_merge {V B : Type} [DecidableEq B] :
    (∀ (s : VertexStream V B) (S : B) (vs : List V) (ts : List Triangle),
      (((s.batch_optimized S).extendWith vs ts).batch_optimized S).batches.length
          = (s.batch_optimized S).batches.length ∧
      (∃ st, (((s.batch_optimized S).extendWith vs ts).batch_optimized
            S).batches.getLast?
          = some ⟨S, st, ((s.batch_optimized S).extendWith vs ts).triangles.length⟩) ∧
      (s.batches = [] →
        (((s.batch_optimized S).extendWith vs ts).batch_optimized S).batches
          = [⟨S, s.triangles.length,
              ((s.batch_optimized S).extendWith vs ts).triangles.length⟩])) ∧
    (∀ (s : VertexStream V B) (S' : B) (br : BatchRange B),
      s.batches.getLast? = some br → br.data ≠ S' →
      (s.batch_optimized S').batches =
        VertexStream.setLastStop s.triangles.length s.batches ++
          [⟨S', s.triangles.length, s.triangles.length⟩]) := by
  constructor
  · intro s S vs ts
    obtain ⟨st, e, hlast⟩ := batch_optimized_getLast s S
    have hsecond := batch_optimized_second_call (s.batch_optimized S) S st e
      vs ts hlast
    refine ⟨?_, ?_, ?_⟩
    · rw [hsecond, setLastStop_length]
    · refine ⟨st, ?_⟩
      rw [hsecond]
      have := setLastStop_getLast?
        ((s.batch_optimized S).extendWith vs ts).triangles.length hlast
      simpa using this
    · intro hnil
      have hnone : s.batches.getLast? = none := by rw [hnil]; rfl
      have hbatch := batch_optimized_none_eq s S hnone
      have hb1 : (s.batch_optimized S).batches =
          [⟨S, s.triangles.length, s.triangles.length⟩] := by
        rw [hbatch, batch_batches, hnil]
        rfl
      rw [hsecond, hb1]
      rfl
  · intro s S' br h hd
    rw [batch_optimized_push_eq s S' h hd, batch_batches]

/-- C4 witness: both parts at concrete streams.  The merged pair of calls
on an empty stream yields the single entry `(0, 0, 1)` after one triangle
is appended in between; opening a different state `1` on the resulting
stream closes `(0,0,1)` and pushes `(1,1,1)`. -/
theorem c4_batch_optimized_merge_witness :
    ((((VertexStream.empty : VertexStream Unit Nat).batch_optimized
          0).extendWith [(), (), ()] [⟨0, 1, 2⟩]).batch_optimized 0).batches
        = [⟨0, 0, 1⟩] ∧
    ((⟨[], [⟨0, 1, 2⟩], [⟨0, 0, 1⟩]⟩ :
        VertexStream Unit Nat).batches.getLast? = some ⟨0, 0, 1⟩) ∧
    ((0 : Nat) ≠ 1) ∧
    ((⟨[], [⟨0, 1, 2⟩], [⟨0, 0, 1⟩]⟩ :
        VertexStream Unit Nat).batch_optimized 1).batches
      = [⟨0, 0, 1⟩, ⟨1, 1, 1⟩] :=
  ⟨((c4_batch_optimized_merge (V := Unit) (B := Nat)).1 VertexStream.empty 0
      [(), (), ()] [⟨0, 1, 2⟩]).2.2 rfl,
   by decide, by decide,
   by
    have := (c4_batch_optimized_merge (V := Unit) (B := Nat)).2
      ⟨[], [⟨0, 1, 2⟩], [⟨0, 0, 1⟩]⟩ 1 ⟨0, 0, 1⟩ (by decide) (by decide)
    simpa using this⟩

/-- C5 (amended): `clear()` empties all three buffers, and no public
operation decreases any buffer length except `clear()`, `extract()` and
`drain()` (and `append(other)`, which drains `other`): every public
batch/shape-append call and every trusted bulk-append call, as well as
the destination side of `append`/`append_cloned`, leaves each of the
three buffer lengths at least as large as before.  The spec's exception
list `{clear, extract}` is refuted by `c5_lengths_counterexample`:
`drain()` also empties the buffers. -/
theorem c5_clear_and_length_monotonicity {V B : Type} [DecidableEq B] :
    (∀ s : VertexStream V B,
      s.clear.vertices = [] ∧ s.clear.triangles = [] ∧ s.clear.batches = []) ∧
    (∀ (s : VertexStream V B) (op : StreamOp V B),
      s.vertices.length ≤ (StreamOp.apply s op).vertices.length ∧
      s.triangles.length ≤ (StreamOp.apply s op).triangles.length ∧
      s.batches.length ≤ (StreamOp.apply s op).batches.length) ∧
    (∀ (s : VertexStream V B) (vs : List V),
      s.vertices.length ≤ (s.extend_vertices vs).vertices.length ∧
      s.triangles.length ≤ (s.extend_vertices vs).triangles.length ∧
      s.batches.length ≤ (s.extend_vertices vs).batches.length) ∧
    (∀ (s : VertexStream V B) (relative : Bool) (ts : List Triangle),
      s.vertices.length ≤ (s.extend_triangles relative ts).vertices.length ∧
      s.triangles.length ≤ (s.extend_triangles relative ts).triangles.length ∧
      s.batches.length ≤ (s.extend_triangles relative ts).batches.length) ∧
    (∀ (s : VertexStream V B) (bs : List (BatchRange B)),
      s.vertices.length ≤ (s.extend_batches bs).vertices.length ∧
      s.triangles.length ≤ (s.extend_batches bs).triangles.length ∧
      s.batches.length ≤ (s.extend_batches bs).batches.length) ∧
    (∀ s other : VertexStream V B,
      s.vertices.length ≤ (VertexStream.appendStream s other).1.vertices.length ∧
      s.triangles.length ≤ (VertexStream.appendStream s other).1.triangles.length ∧
      s.batches.length ≤ (VertexStream.appendStream s other).1.batches.length) ∧
    (∀ s other : VertexStream V B,
      s.vertices.length ≤ (s.append_cloned other).vertices.length ∧
      s.triangles.length ≤ (s.append_cloned other).triangles.length ∧
      s.batches.length ≤ (s.append_cloned other).batches.length) := by
  refine ⟨fun s => ⟨rfl, rfl, rfl⟩, ?_, ?_, ?_, ?_, ?_, ?_⟩
  · intro s op
    cases op with
    | tri v0 v1 v2 => simp [StreamOp.apply, VertexStream.triangle]
    | quadOp v0 v1 v2 v3 => simp [StreamOp.apply, VertexStream.quad]
    | fan vs => simp [StreamOp.apply, VertexStream.triangle_fan]
    | strip vs => simp [StreamOp.apply, VertexStream.triangle_strip]
    | extendGeometry vs ts => simp [StreamOp.apply, VertexStream.extendWith]
    | openBatch d =>
      refine ⟨le_refl _, le_refl _, ?_⟩
      show s.batches.length ≤ (s.batch d).batches.length
      rw [batch_batches]
      simp [setLastStop_length]
    | openBatchOptimized d =>
      have key : (s.batch_optimized d).vertices = s.vertices ∧
          (s.batch_optimized d).triangles = s.triangles ∧
          s.batches.length ≤ (s.batch_optimized d).batches.length := by
        cases h : s.batches.getLast? with
        | none =>
          rw [batch_optimized_none_eq s d h]
          refine ⟨rfl, rfl, ?_⟩
          rw [batch_batches]
          simp [setLastStop_length]
        | some br =>
          by_cases hd : br.data = d
          · rw [batch_optimized_merge_eq s d h hd]
            exact ⟨rfl, rfl, by simp [setLastStop_length]⟩
          · rw [batch_optimized_push_eq s d h hd]
            refine ⟨rfl, rfl, ?_⟩
            rw [batch_batches]
            simp [setLastStop_length]
      exact ⟨le_of_eq (congrArg List.length key.1).symm,
        le_of_eq (congrArg List.length key.2.1).symm, key.2.2⟩
    | closeBatch =>
      exact ⟨le_refl _, le_refl _, by
        show s.batches.length ≤ (s.batch_end).batches.length
        simp [VertexStream.batch_end, setLastStop_length]⟩
  · intro s vs
    simp [VertexStream.extend_vertices]
  · intro s relative ts
    cases relative <;> simp [VertexStream.extend_triangles]
  · intro s bs
    simp [VertexStream.extend_batches]
  · intro s other
    simp [VertexStream.appendStream]
  · intro s other
    simp [VertexStream.append_cloned, VertexStream.appendStream]

/-- C5 witness: the monotonicity at a concrete stream and operation. -/
theorem c5_lengths_witness :
    ((⟨[7], [⟨0, 0, 0⟩], [⟨3, 0, 1⟩]⟩ :
        VertexStream Nat Nat).clear.vertices = []) ∧
    ((⟨[7], [⟨0, 0, 0⟩], [⟨3, 0, 1⟩]⟩ :
        VertexStream Nat Nat).batches.length ≤
      (StreamOp.apply ⟨[7], [⟨0, 0, 0⟩], [⟨3, 0, 1⟩]⟩
        (StreamOp.openBatchOptimized 4)).batches.length) :=
  ⟨((c5_clear_and_length_monotonicity (V := Nat) (B := Nat)).1
      ⟨[7], [⟨0, 0, 0⟩], [⟨3, 0, 1⟩]⟩).1,
   ((c5_clear_and_length_monotonicity (V := Nat) (B := Nat)).2.1
      ⟨[7], [⟨0, 0, 0⟩], [⟨3, 0, 1⟩]⟩ (StreamOp.openBatchOptimized 4)).2.2⟩

/-- C5 counterexample: `drain()` is a public operation other than
`clear()` and `extract()` that decreases the buffer lengths — it empties
all three (here the vertex buffer drops from length 1 to 0). -/
theorem c5_lengths_counterexample :
    ((⟨[7], [], []⟩ : VertexStream Nat Nat).drain.2.vertices.length <
      (⟨[7], [], []⟩ : VertexStream Nat Nat).vertices.length) := by decide

/-- C6: `triangle_fan` / `triangle_strip` on an N-vertex input append the
N vertices and emit exactly `max(N-2,0)` triangles (`N - 2` in `Nat`
arithmetic): every fan triangle has the first appended vertex's index as
its first corner; strip triangle `i` uses the consecutive indices
`start+i, start+i+1, start+i+2` with winding flipped on odd `i`.  Fewer
than 3 vertices produce zero triangles (both helpers are total — no
error is possible). -/
theorem c6_fan_strip_topology {V B : Type} (s : VertexStream V B)
    (vs : List V) :
    (s.triangle_fan vs).vertices = s.vertices ++ vs ∧
    (s.triangle_fan vs).triangles.length =
      s.triangles.length + (vs.length - 2) ∧
    (∀ t ∈ (s.triangle_fan vs).triangles.drop s.triangles.length,
      t.a = s.vertices.length) ∧
    (vs.length < 3 → (s.triangle_fan vs).triangles = s.triangles) ∧
    (s.triangle_strip vs).vertices = s.vertices ++ vs ∧
    (s.triangle_strip vs).triangles.length =
      s.triangles.length + (vs.length - 2) ∧
    (∀ i, i < vs.length - 2 →
      ((s.triangle_strip vs).triangles.drop s.triangles.length)[i]? =
        some (if i % 2 = 1
          then ⟨s.vertices.length + i + 1, s.vertices.length + i,
            s.vertices.length + i + 2⟩
          else ⟨s.vertices.length + i, s.vertices.length + i + 1,
            s.vertices.length + i + 2⟩)) ∧
    (vs.length < 3 → (s.triangle_strip vs).triangles = s.triangles) := by
  refine ⟨rfl, ?_, ?_, ?_, rfl, ?_, ?_, ?_⟩
  · simp [VertexStream.triangle_fan, VertexStream.fanTriangles]
  · intro t ht
    rw [show (s.triangle_fan vs).triangles =
      s.triangles ++ VertexStream.fanTriangles s.vertices.length
        (vs.length - 2) from rfl, List.drop_left] at ht
    simp only [VertexStream.fanTriangles, List.mem_map, List.mem_range] at ht
    obtain ⟨i, _, hi⟩ := ht
    rw [← hi]
  · intro hlen
    have h2 : vs.length - 2 = 0 := by omega
    show s.triangles ++ VertexStream.fanTriangles s.vertices.length
      (vs.length - 2) = s.triangles
    rw [h2]
    simp [VertexStream.fanTriangles]
  · simp [VertexStream.triangle_strip, VertexStream.stripTriangles]
  · intro i hi
    rw [show (s.triangle_strip vs).triangles =
      s.triangles ++ VertexStream.stripTriangles s.vertices.length
        (vs.length - 2) from rfl, List.drop_left]
    simp only [VertexStream.stripTriangles, List.getElem?_map]
    rw [List.getElem?_range hi]
    rfl
  · intro hlen
    have h2 : vs.length - 2 = 0 := by omega
    show s.triangles ++ VertexStream.stripTriangles s.vertices.length
      (vs.length - 2) = s.triangles
    rw [h2]
    simp [VertexStream.stripTriangles]

/-- C6 witness: 5 vertices yield exactly 3 fan triangles all sharing the
first appended vertex index, 2 vertices yield none; the strip triangle at
index 1 has flipped winding over consecutive indices. -/
theorem c6_fan_strip_topology_witness :
    ((VertexStream.empty : VertexStream Nat Unit).triangle_fan
        [1, 2, 3, 4, 5]).triangles.length = 3 ∧
    (∀ t ∈ ((VertexStream.empty : VertexStream Nat Unit).triangle_fan
        [1, 2, 3, 4, 5]).triangles.drop 0, t.a = 0) ∧
    ((VertexStream.empty : VertexStream Nat Unit).triangle_fan
        [1, 2]).triangles = [] ∧
    (1 < [1, 2, 3, 4, 5].length - 2) ∧
    (((VertexStream.empty : VertexStream Nat Unit).triangle_strip
        [1, 2, 3, 4, 5]).triangles.drop 0)[1]? = some ⟨2, 1, 3⟩ :=
  ⟨(c6_fan_strip_topology VertexStream.empty [1, 2, 3, 4, 5]).2.1,
   (c6_fan_strip_topology VertexStream.empty [1, 2, 3, 4, 5]).2.2.1,
   (c6_fan_strip_topology VertexStream.empty [1, 2]).2.2.2.1 (by decide),
   by decide,
   (c6_fan_strip_topology VertexStream.empty
     [1, 2, 3, 4, 5]).2.2.2.2.2.2.1 1 (by decide)⟩

section GlowDiffing

variable {U : Type}

lemma mem_uniformCalls [DecidableEq U] {locate : Nat → String → Option Nat}
    {program : Nat} {changed : Bool} {us pus : List (String × U)}
    {c : GLCall U} (h : c ∈ uniformCalls locate program changed us pus) :
    ∃ loc v, c = GLCall.uniformUpload loc v := by
  simp only [uniformCalls, List.mem_filterMap] at h
  obtain ⟨a, -, ha⟩ := h
  split at ha
  · split at ha
    · exact ⟨_, _, (Option.some.inj ha).symm⟩
    · simp at ha
  · simp at ha

lemma mem_bindTextureCalls {data : Nat × Nat × Int × Int} {c : GLCall U}
    (h : c ∈ bindTextureCalls data) :
    (∃ t x, c = GLCall.bindTexture t x) ∨
    (∃ t p v, c = GLCall.texParameter t p v) := by
  simp only [bindTextureCalls, List.mem_cons, List.mem_singleton] at h
  rcases h with h | h | h | h
  · exact Or.inl ⟨_, _, h⟩
  · exact Or.inr ⟨_, _, _, h⟩
  · exact Or.inr ⟨_, _, _, h⟩
  · simp at h

lemma mem_textureCalls {ts pts : List (Nat × Nat × Int × Int)} {c : GLCall U}
    (h : c ∈ textureCalls ts pts) :
    (∃ u, c = GLCall.activeTexture u) ∨
    (∃ t x, c = GLCall.bindTexture t x) ∨
    (∃ t p v, c = GLCall.texParameter t p v) := by
  simp only [textureCalls, List.mem_flatten, List.mem_map] at h
  obtain ⟨l, ⟨pr, -, hpr⟩, hc⟩ := h
  subst hpr
  rcases List.mem_cons.mp hc with h1 | h2
  · exact Or.inl ⟨_, h1⟩
  · have hbind : c ∈ bindTextureCalls (U := U) pr.2 := by
      split at h2
      · split at h2
        · exact h2
        · simp at h2
      · exact h2
    rcases mem_bindTextureCalls hbind with h | h
    · exact Or.inr (Or.inl h)
    · exact Or.inr (Or.inr h)

lemma mem_blendCalls {bl pbl : Option (Nat × Nat)} {c : GLCall U}
    (h : c ∈ blendCalls bl pbl) :
    c = GLCall.enableBlend ∨ (∃ s d, c = GLCall.blendFunc s d) ∨
    c = GLCall.disableBlend := by
  unfold blendCalls at h
  split at h
  · split at h
    · rcases List.mem_cons.mp h with h | h
      · exact Or.inl h
      · exact Or.inr (Or.inl ⟨_, _, by simpa using h⟩)
    · exact Or.inr (Or.inr (by simpa using h))
  · simp at h

lemma mem_scissorCalls {sc psc : Option (Int × Int × Int × Int)} {c : GLCall U}
    (h : c ∈ scissorCalls sc psc) :
    c = GLCall.enableScissor ∨ (∃ x y w h', c = GLCall.scissorRect x y w h') ∨
    c = GLCall.disableScissor := by
  unfold scissorCalls at h
  split at h
  · split at h
    · rcases List.mem_cons.mp h with h | h
      · exact Or.inl h
      · exact Or.inr (Or.inl ⟨_, _, _, _, by simpa using h⟩)
    · exact Or.inr (Or.inr (by simpa using h))
  · simp at h

lemma mem_wireframeCalls {w pw : Bool} {c : GLCall U}
    (h : c ∈ wireframeCalls w pw) : ∃ b, c = GLCall.polygonMode b := by
  unfold wireframeCalls at h
  split at h
  · exact ⟨_, by simpa using h⟩
  · simp at h

lemma mem_shaderCalls [DecidableEq U] {locate : Nat → String → Option Nat}
    {b prev : GlowBatch U} {c : GLCall U}
    (h : c ∈ (match b.shader_program with
      | none => []
      | some program =>
        let changed := match prev.shader_program with
          | some prevProgram => program != prevProgram
          | none => true
        GLCall.useProgram program ::
          uniformCalls locate program changed b.uniforms prev.uniforms)) :
    (∃ p, c = GLCall.useProgram p) ∨ ∃ loc v, c = GLCall.uniformUpload loc v := by
  split at h
  · simp at h
  · rcases List.mem_cons.mp h with h1 | h2
    · exact Or.inl ⟨_, h1⟩
    · exact Or.inr (mem_uniformCalls h2)

lemma blendCalls_self (bl : Option (Nat × Nat)) :
    blendCalls (U := U) bl bl = [] := by simp [blendCalls]

lemma scissorCalls_self (sc : Option (Int × Int × Int × Int)) :
    scissorCalls (U := U) sc sc = [] := by simp [scissorCalls]

lemma wireframeCalls_self (w : Bool) :
    wireframeCalls (U := U) w w = [] := by simp [wireframeCalls]

/-- Decompose a member of the full `drawCalls` list into its source
block. -/
lemma mem_drawCalls [DecidableEq U] {locate : Nat → String → Option Nat}
    {b prev : GlowBatch U} {start stop : Nat} {c : GLCall U}
    (h : c ∈ b.drawCalls locate start stop prev) :
    ((∃ p, c = GLCall.useProgram p) ∨ ∃ loc v, c = GLCall.uniformUpload loc v) ∨
    ((∃ u, c = GLCall.activeTexture u) ∨ (∃ t x, c = GLCall.bindTexture t x) ∨
      ∃ t p v, c = GLCall.texParameter t p v) ∨
    c ∈ blendCalls (U := U) b.blending prev.blending ∨
    c ∈ scissorCalls (U := U) b.scissor prev.scissor ∨
    c ∈ wireframeCalls (U := U) b.wireframe prev.wireframe ∨
    c = GLCall.drawElements ((stop - start) * 3) (start * 4 * 3) := by
  unfold GlowBatch.drawCalls at h
  simp only [List.mem_append, List.mem_singleton] at h
  rcases h with ((((h | h) | h) | h) | h) | h
  exacts [Or.inl (mem_shaderCalls h),
    Or.inr <| Or.inl <| mem_textureCalls h,
    Or.inr <| Or.inr <| Or.inl h,
    Or.inr <| Or.inr <| Or.inr <| Or.inl h,
    Or.inr <| Or.inr <| Or.inr <| Or.inr <| Or.inl h,
    Or.inr <| Or.inr <| Or.inr <| Or.inr <| Or.inr h]

lemma drawList_eq_nil_of_no_draw {l : List (GLCall U)}
    (h : ∀ c ∈ l, ∀ n o, c ≠ GLCall.drawElements n o) :
    drawList l = [] := by
  rw [drawList, List.filterMap_eq_nil_iff]
  intro a ha
  cases a <;> first
    | rfl
    | exact absurd rfl (h _ ha _ _)

lemma drawList_drawCalls [DecidableEq U] (locate : Nat → String → Option Nat)
    (b prev : GlowBatch U) (start stop : Nat) :
    drawList (b.drawCalls locate start stop prev) =
      [((stop - start) * 3, start * 4 * 3)] := by
  have hfront : drawList
      ((match b.shader_program with
        | none => []
        | some program =>
          let changed := match prev.shader_program with
            | some prevProgram => program != prevProgram
            | none => true
          GLCall.useProgram program ::
            uniformCalls locate program changed b.uniforms prev.uniforms)
      ++ textureCalls b.textures prev.textures
      ++ blendCalls b.blending prev.blending
      ++ scissorCalls b.scissor prev.scissor
      ++ wireframeCalls b.wireframe prev.wireframe) = [] := by
    refine drawList_eq_nil_of_no_draw fun c hc => ?_
    simp only [List.mem_append] at hc
    rcases hc with (((hc | hc) | hc) | hc) | hc
    · rcases mem_shaderCalls hc with ⟨p, rfl⟩ | ⟨loc, v, rfl⟩ <;> simp
    · rcases mem_textureCalls hc with ⟨u, rfl⟩ | ⟨t, x, rfl⟩ | ⟨t, p, v, rfl⟩ <;>
        simp
    · rcases mem_blendCalls hc with rfl | ⟨s, d, rfl⟩ | rfl <;> simp
    · rcases mem_scissorCalls hc with rfl | ⟨x, y, w, h', rfl⟩ | rfl <;> simp
    · obtain ⟨w, rfl⟩ := mem_wireframeCalls hc
      simp
  show drawList
    ((match b.shader_program with
      | none => []
      | some program =>
        let changed := match prev.shader_program with
          | some prevProgram => program != prevProgram
          | none => true
        GLCall.useProgram program ::
          uniformCalls locate program changed b.uniforms prev.uniforms)
    ++ textureCalls b.textures prev.textures
    ++ blendCalls b.blending prev.blending
    ++ scissorCalls b.scissor prev.scissor
    ++ wireframeCalls b.wireframe prev.wireframe
    ++ [GLCall.drawElements ((stop - start) * 3) (start * 4 * 3)]) = _
  rw [drawList, List.filterMap_append, ← drawList, ← drawList, hfront]
  rfl

lemma drawList_renderBatchCalls [DecidableEq U]
    (locate : Nat → String → Option Nat)
    (batches : List (GlowBatch U × Nat × Nat)) :
    ∀ prev, drawList (renderBatchCalls locate prev batches) =
      batches.map fun p => ((p.2.2 - p.2.1) * 3, p.2.1 * 4 * 3) := by
  induction batches with
  | nil => intro prev; rfl
  | cons bse rest ih =>
    intro prev
    show drawList (bse.1.drawCalls locate bse.2.1 bse.2.2 prev ++
      renderBatchCalls locate bse.1 rest) = _
    rw [drawList, List.filterMap_append, ← drawList, ← drawList,
      drawList_drawCalls, ih]
    rfl

end GlowDiffing

/-- C3 (amended): in the two-batch scenario (A: shader X, alpha blend,
triangles `0..2`; B: shader X, additive blend, triangles `2..5`) the
diffed submission issues the shader-bind call TWICE — `use_program` is
issued unconditionally for every batch carrying a shader program, not
only when the program differs (only the uniform uploads are diffed) —
the blend-mode call exactly twice, and one indexed draw per batch over
exactly that batch's range.  In general a state-change call for the
blending, scissor and wireframe fields is issued only when the field
differs from the previous batch's resolved state, and every batch emits
exactly one indexed draw of `(stop-start)*3` indices at byte offset
`start*12`.  The claim's "shader-bind issued exactly once" is refuted by
`c3_use_program_counterexample`. -/
theorem c3_diffed_submission {U : Type} [DecidableEq U] :
    countUseProgram c3Trace = 2 ∧
    countBlendMode c3Trace = 2 ∧
    drawList c3Trace = [(6, 0), (9, 24)] ∧
    (∀ (locate : Nat → String → Option Nat) (b prev : GlowBatch U)
        (start stop : Nat), b.blending = prev.blending →
      (b.drawCalls locate start stop prev).countP GLCall.isBlendCall = 0) ∧
    (∀ (locate : Nat → String → Option Nat) (b prev : GlowBatch U)
        (start stop : Nat), b.scissor = prev.scissor →
      (b.drawCalls locate start stop prev).countP GLCall.isScissorCall = 0) ∧
    (∀ (locate : Nat → String → Option Nat) (b prev : GlowBatch U)
        (start stop : Nat), b.wireframe = prev.wireframe →
      (b.drawCalls locate start stop prev).countP GLCall.isPolygonMode = 0) ∧
    (∀ (locate : Nat → String → Option Nat) (b prev : GlowBatch U)
        (start stop : Nat),
      drawList (b.drawCalls locate start stop prev) =
        [((stop - start) * 3, start * 4 * 3)]) ∧
    (∀ (locate : Nat → String → Option Nat)
        (batches : List (GlowBatch U × Nat × Nat)),
      drawList (renderTrace locate batches) =
        batches.map fun p => ((p.2.2 - p.2.1) * 3, p.2.1 * 4 * 3)) := by
  refine ⟨by decide, by decide, by decide, ?_, ?_, ?_,
    fun locate b prev start stop => drawList_drawCalls locate b prev start stop,
    fun locate batches => drawList_renderBatchCalls locate batches _⟩
  · intro locate b prev start stop hbl
    rw [List.countP_eq_zero]
    intro c hc
    rcases mem_drawCalls hc with
      (⟨p, rfl⟩ | ⟨loc, v, rfl⟩) |
      (⟨u, rfl⟩ | ⟨t, x, rfl⟩ | ⟨t, p, v, rfl⟩) | hbl2 | hsc | hwf | rfl
    · simp [GLCall.isBlendCall]
    · simp [GLCall.isBlendCall]
    · simp [GLCall.isBlendCall]
    · simp [GLCall.isBlendCall]
    · simp [GLCall.isBlendCall]
    · rw [hbl, blendCalls_self] at hbl2
      simp at hbl2
    · rcases mem_scissorCalls hsc with rfl | ⟨x, y, w, h', rfl⟩ | rfl <;>
        simp [GLCall.isBlendCall]
    · obtain ⟨w, rfl⟩ := mem_wireframeCalls hwf
      simp [GLCall.isBlendCall]
    · simp [GLCall.isBlendCall]
  · intro locate b prev start stop hsc
    rw [List.countP_eq_zero]
    intro c hc
    rcases mem_drawCalls hc with
      (⟨p, rfl⟩ | ⟨loc, v, rfl⟩) |
      (⟨u, rfl⟩ | ⟨t, x, rfl⟩ | ⟨t, p, v, rfl⟩) | hbl2 | hsc2 | hwf | rfl
    · simp [GLCall.isScissorCall]
    · simp [GLCall.isScissorCall]
    · simp [GLCall.isScissorCall]
    · simp [GLCall.isScissorCall]
    · simp [GLCall.isScissorCall]
    · rcases mem_blendCalls hbl2 with rfl | ⟨s, d, rfl⟩ | rfl <;>
        simp [GLCall.isScissorCall]
    · rw [hsc, scissorCalls_self] at hsc2
      simp at hsc2
    · obtain ⟨w, rfl⟩ := mem_wireframeCalls hwf
      simp [GLCall.isScissorCall]
    · simp [GLCall.isScissorCall]
  · intro locate b prev start stop hwf
    rw [List.countP_eq_zero]
    intro c hc
    rcases mem_drawCalls hc with
      (⟨p, rfl⟩ | ⟨loc, v, rfl⟩) |
      (⟨u, rfl⟩ | ⟨t, x, rfl⟩ | ⟨t, p, v, rfl⟩) | hbl2 | hsc2 | hwf2 | rfl
    · simp [GLCall.isPolygonMode]
    · simp [GLCall.isPolygonMode]
    · simp [GLCall.isPolygonMode]
    · simp [GLCall.isPolygonMode]
    · simp [GLCall.isPolygonMode]
    · rcases mem_blendCalls hbl2 with rfl | ⟨s, d, rfl⟩ | rfl <;>
        simp [GLCall.isPolygonMode]
    · rcases mem_scissorCalls hsc2 with rfl | ⟨x, y, w, h', rfl⟩ | rfl <;>
        simp [GLCall.isPolygonMode]
    · rw [hwf, wireframeCalls_self] at hwf2
      simp at hwf2
    · simp [GLCall.isPolygonMode]

/-- C3 witness: the scenario facts and the diffing hypotheses at concrete
batches (batch diffed against itself emits no blend / scissor /
polygon-mode call). -/
theorem c3_diffed_submission_witness :
    countUseProgram c3Trace = 2 ∧
    countBlendMode c3Trace = 2 ∧
    drawList c3Trace = [(6, 0), (9, 24)] ∧
    (c3BatchA.blending = c3BatchA.blending ∧
      (c3BatchA.drawCalls (fun _ _ => none) 0 2 c3BatchA).countP
        GLCall.isBlendCall = 0) ∧
    drawList (c3BatchB.drawCalls (fun _ _ => none) 2 5 c3BatchA) = [(9, 24)] :=
  ⟨(c3_diffed_submission (U := Unit)).1,
   (c3_diffed_submission (U := Unit)).2.1,
   (c3_diffed_submission (U := Unit)).2.2.1,
   ⟨rfl, (c3_diffed_submission (U := Unit)).2.2.2.1 (fun _ _ => none)
      c3BatchA c3BatchA 0 2 rfl⟩,
   (c3_diffed_submission (U := Unit)).2.2.2.2.2.2.1 (fun _ _ => none)
     c3BatchB c3BatchA 2 5⟩

/-- C3 counterexample: the shader-bind call is issued twice, not once,
across the two-batch scenario — `use_program` is not diffed. -/
theorem c3_use_program_counterexample :
    countUseProgram c3Trace = 2 ∧ countUseProgram c3Trace ≠ 1 := by decide

/-- C7 (amended): whenever a glyph key's cache entry is occupied — in
particular after a first include that rasterized, allocated and stored
its record — a further include of the same key performs no rasterization
and no page-rectangle allocation (no events), leaves the cache untouched,
and the record returned for the request is identical.  The claim's
universal form ("rasterization only on the first occurrence, for every
glyph key") is refuted by `c7_rerasterize_counterexample`: a key that is
never inserted (a non-rasterizing glyph, or a failed allocation) is
rasterized again on every occurrence. -/
theorem c7_glyph_cache_idempotent {K UD A : Type} [DecidableEq K]
    (ops : AtlasOps A) (raster : K → GlyphMetrics × List Nat)
    (st : TextRenderer K UD A) (g : GlyphPos K UD) (r : TextRendererGlyph)
    (h : st.used_glyphs.lookup g.key = some r) :
    (includeGlyph ops raster st g).2 = [] ∧
    (includeGlyph ops raster st g).1.used_glyphs = st.used_glyphs ∧
    glyphQuery (includeGlyph ops raster st g).1 g.key = some r := by
  unfold includeGlyph
  cases hf : g.rasterizeFlag with
  | false =>
    simp only [hf, Bool.false_eq_true, if_false]
    rw [h]
    exact ⟨rfl, rfl, by simpa [glyphQuery] using h⟩
  | true =>
    simp only [hf, if_true]
    have h1 : ({ st with ready_to_render := st.ready_to_render ++ [g] } :
        TextRenderer K UD A).used_glyphs.lookup g.key = some r := h
    rw [h1]
    exact ⟨rfl, rfl, by simpa [glyphQuery] using h⟩

/-- C7 witness: a first include of key 5 stores the record `(page 0,
rect (0,0) 1×1)`; the second include emits no events and returns the
identical record. -/
theorem c7_glyph_cache_witness :
    ((includeGlyph c7Ops c7Raster c7St0 c7Glyph).1.used_glyphs.lookup 5 =
      some ⟨0, ⟨0, 0, 1, 1⟩⟩) ∧
    (includeGlyph c7Ops c7Raster c7St0 c7Glyph).2 =
      [AtlasEvent.rasterized 5, AtlasEvent.allocated 5 0 0 0] ∧
    (includeGlyph c7Ops c7Raster
      (includeGlyph c7Ops c7Raster c7St0 c7Glyph).1 c7Glyph).2 = [] ∧
    glyphQuery (includeGlyph c7Ops c7Raster
      (includeGlyph c7Ops c7Raster c7St0 c7Glyph).1 c7Glyph).1 5 =
      some ⟨0, ⟨0, 0, 1, 1⟩⟩ :=
  ⟨by decide, by decide,
   (c7_glyph_cache_idempotent c7Ops c7Raster
     (includeGlyph c7Ops c7Raster c7St0 c7Glyph).1 c7Glyph ⟨0, ⟨0, 0, 1, 1⟩⟩
     (by decide)).1,
   (c7_glyph_cache_idempotent c7Ops c7Raster
     (includeGlyph c7Ops c7Raster c7St0 c7Glyph).1 c7Glyph ⟨0, ⟨0, 0, 1, 1⟩⟩
     (by decide)).2.2⟩

/-- C7 counterexample: a non-rasterizing glyph (e.g. a space) never
enters the cache, so processing its key through the include step twice
calls the rasterizer on BOTH occurrences — rasterization is not limited
to the first occurrence of a key. -/
theorem c7_rerasterize_counterexample :
    (includeGlyph c7Ops c7Raster c7St0 c7Space).2 =
      [AtlasEvent.rasterized 5] ∧
    (includeGlyph c7Ops c7Raster
      (includeGlyph c7Ops c7Raster c7St0 c7Space).1 c7Space).2 =
      [AtlasEvent.rasterized 5] := by decide

section GlyphQuadLengths

variable {K UD A D : Type} [DecidableEq K]

lemma glyphQuadFold_lengths (st : TextRenderer K UD A)
    (gs : List (GlyphPos K UD)) :
    ∀ stream : VertexStream (TextVtx UD) D,
    (gs.foldl (glyphQuadStep st) stream).vertices.length =
      stream.vertices.length +
        4 * gs.countP (fun g => (st.used_glyphs.lookup g.key).isSome) ∧
    (gs.foldl (glyphQuadStep st) stream).triangles.length =
      stream.triangles.length +
        2 * gs.countP (fun g => (st.used_glyphs.lookup g.key).isSome) := by
  induction gs with
  | nil => intro stream; simp
  | cons g rest ih =>
    intro stream
    show (rest.foldl (glyphQuadStep st) (glyphQuadStep st stream g)).vertices.length = _ ∧
      (rest.foldl (glyphQuadStep st) (glyphQuadStep st stream g)).triangles.length = _
    obtain ⟨ihv, iht⟩ := ih (glyphQuadStep st stream g)
    cases hd : st.used_glyphs.lookup g.key with
    | none =>
      have hstep : glyphQuadStep st stream g = stream := by
        unfold glyphQuadStep
        rw [hd]
      rw [hstep] at ihv iht
      rw [hstep, ihv, iht]
      simp [List.countP_cons, hd]
    | some data =>
      have hv : (glyphQuadStep st stream g).vertices.length =
          stream.vertices.length + 4 := by
        unfold glyphQuadStep
        rw [hd]
        simp [VertexStream.quad]
      have ht : (glyphQuadStep st stream g).triangles.length =
          stream.triangles.length + 2 := by
        unfold glyphQuadStep
        rw [hd]
        simp [VertexStream.quad]
      rw [ihv, iht, hv, ht]
      simp only [List.countP_cons, hd, Option.isSome_some, if_true]
      constructor <;> omega

end GlyphQuadLengths

/-- C8 (amended): every queued renderable glyph whose key resolves in the
cache contributes exactly one quad — 4 vertices and the standard quad
helper's 2 triangles `(o,o+1,o+2)`, `(o+2,o+3,o)` — whose texture
coordinates are the pixel rectangle's corners with x divided by the atlas
width and y by the atlas height, while the third (page) coordinate is the
RAW page index, not divided by the page count (that division is refuted
by `c8_page_uv_counterexample`); the queue is drained.  In general the
drain appends `4·k` vertices and `2·k` triangles where `k` is the number
of queued glyphs whose key resolves. -/
theorem c8_glyph_quad_uv {K UD A D : Type} [DecidableEq K] :
    (∀ (st : TextRenderer K UD A) (stream : VertexStream (TextVtx UD) D)
        (g : GlyphPos K UD) (data : TextRendererGlyph),
      st.ready_to_render = [g] → st.used_glyphs.lookup g.key = some data →
      (render_to_stream st stream).2.vertices = stream.vertices ++
        [⟨(g.x, g.y),
          ((data.rectangle.x : ℚ) / (st.atlas_width : ℚ),
           (data.rectangle.y : ℚ) / (st.atlas_height : ℚ),
           (data.page : ℚ)), g.user_data⟩,
         ⟨(g.x + (g.width : ℚ), g.y),
          (((data.rectangle.x + data.rectangle.w : Nat) : ℚ) / (st.atlas_width : ℚ),
           (data.rectangle.y : ℚ) / (st.atlas_height : ℚ),
           (data.page : ℚ)), g.user_data⟩,
         ⟨(g.x + (g.width : ℚ), g.y + (g.height : ℚ)),
          (((data.rectangle.x + data.rectangle.w : Nat) : ℚ) / (st.atlas_width : ℚ),
           ((data.rectangle.y + data.rectangle.h : Nat) : ℚ) / (st.atlas_height : ℚ),
           (data.page : ℚ)), g.user_data⟩,
         ⟨(g.x, g.y + (g.height : ℚ)),
          ((data.rectangle.x : ℚ) / (st.atlas_width : ℚ),
           ((data.rectangle.y + data.rectangle.h : Nat) : ℚ) / (st.atlas_height : ℚ),
           (data.page : ℚ)), g.user_data⟩] ∧
      (render_to_stream st stream).2.triangles = stream.triangles ++
        [Triangle.offset ⟨0, 1, 2⟩ stream.vertices.length,
         Triangle.offset ⟨2, 3, 0⟩ stream.vertices.length] ∧
      (render_to_stream st stream).1.ready_to_render = []) ∧
    (∀ (st : TextRenderer K UD A) (stream : VertexStream (TextVtx UD) D),
      (render_to_stream st stream).2.vertices.length =
        stream.vertices.length +
          4 * st.ready_to_render.countP
            (fun g => (st.used_glyphs.lookup g.key).isSome) ∧
      (render_to_stream st stream).2.triangles.length =
        stream.triangles.length +
          2 * st.ready_to_render.countP
            (fun g => (st.used_glyphs.lookup g.key).isSome)) := by
  constructor
  · intro st stream g data hready hdata
    refine ⟨?_, ?_, rfl⟩
    · show ((st.ready_to_render.foldl (glyphQuadStep st) stream)).vertices = _
      rw [hready]
      show (glyphQuadStep st stream g).vertices = _
      unfold glyphQuadStep
      rw [hdata]
      rfl
    · show ((st.ready_to_render.foldl (glyphQuadStep st) stream)).triangles = _
      rw [hready]
      show (glyphQuadStep st stream g).triangles = _
      unfold glyphQuadStep
      rw [hdata]
      rfl
  · intro st stream
    exact glyphQuadFold_lengths st st.ready_to_render stream

/-- C8 witness: the exact quad at concrete state and glyph. -/
theorem c8_glyph_quad_uv_witness :
    c8St.ready_to_render = [⟨0, true, 0, 0, 1, 1, ()⟩] ∧
    c8St.used_glyphs.lookup 0 = some ⟨1, ⟨0, 0, 1, 1⟩⟩ ∧
    (render_to_stream c8St
      (VertexStream.empty : VertexStream (TextVtx Unit) Unit)).2.triangles =
      [Triangle.offset ⟨0, 1, 2⟩ 0, Triangle.offset ⟨2, 3, 0⟩ 0] ∧
    (render_to_stream c8St
      (VertexStream.empty : VertexStream (TextVtx Unit) Unit)).2.vertices.length
      = 4 :=
  ⟨rfl, by decide,
   by
    have := ((c8_glyph_quad_uv (D := Unit)).1 c8St VertexStream.empty
      ⟨0, true, 0, 0, 1, 1, ()⟩ ⟨1, ⟨0, 0, 1, 1⟩⟩ rfl (by decide)).2.1
    simpa using this,
   by
    have := ((c8_glyph_quad_uv (D := Unit)).2 c8St VertexStream.empty).1
    simpa using this⟩

/-- C8 counterexample: the third texture coordinate of the appended quad
is the raw page index (here `1`), not the page index divided by the page
count (`1 / 2`), so "divided by ... page count respectively" is false. -/
theorem c8_page_uv_counterexample :
    ((render_to_stream c8St
        (VertexStream.empty : VertexStream (TextVtx Unit) Unit)).2.vertices.map
      (fun v => v.tex_coord.2.2)) = [1, 1, 1, 1] ∧
    (1 : ℚ) ≠ (1 : ℚ) / (2 : ℚ) := by
  constructor
  · decide
  · norm_num

/-- C9: the code computes `y * width + y`, so the two same-row tiles
`(x=1, y=0)` and `(x=2, y=0)` of a 3×3 map collide at linear index 0,
while the spec's corrected form `y * width + x` sends them to the
distinct indices 1 and 2. -/
theorem c9_index_uses_y_twice :
    (TileMap.ofFill ⟨3, 3⟩ 0).index ⟨1, 0⟩ = 0 ∧
    (TileMap.ofFill ⟨3, 3⟩ 0).index ⟨2, 0⟩ = 0 ∧
    (TileMap.ofFill ⟨3, 3⟩ 0).index_spec ⟨1, 0⟩ = 1 ∧
    (TileMap.ofFill ⟨3, 3⟩ 0).index_spec ⟨2, 0⟩ = 2 := by decide

/-- C10: for every map and index, `location(i)` is
`(i % width, i / height)` — the `y` component divides by the HEIGHT — and
consequently on the non-square 2×3 map the in-bounds location `(0, 2)`
does not round-trip even through the spec-corrected `index` formula:
`index_spec (0,2) = 4` but `location 4 = (0, 1)`. -/
theorem c10_location_divides_by_height :
    (∀ (m : TileMap) (i : Nat),
      (m.location i).x = i % m.size.x ∧ (m.location i).y = i / m.size.y) ∧
    ((TileMap.ofFill ⟨2, 3⟩ 0).size.x ≠ (TileMap.ofFill ⟨2, 3⟩ 0).size.y ∧
     (0 : Nat) < (TileMap.ofFill ⟨2, 3⟩ 0).size.x ∧
     (2 : Nat) < (TileMap.ofFill ⟨2, 3⟩ 0).size.y ∧
     (TileMap.ofFill ⟨2, 3⟩ 0).location
       ((TileMap.ofFill ⟨2, 3⟩ 0).index_spec ⟨0, 2⟩) ≠ ⟨0, 2⟩) :=
  ⟨fun _ _ => ⟨rfl, rfl⟩, by decide⟩

end Spitfire
